import Mathlib

/-!
Verification development for the catalog synchronization engine
(`scraper/src/scraper.py` and `scraper/src/initializer/initializer.py`).

The Python code is shallowly embedded: pure computations become Lean
functions, the stateful importer becomes explicit state passing over an
`InitState` record, remote-server behaviour (success / failure of each
HTTP round trip) is abstracted as an oracle argument, and the
lock-serialized concurrent sections are modelled as sequences of atomic
steps (the code holds one mutex across every cache round trip, and a
ledger lock around every ledger append, so any concurrent execution is
a linearization of these atomic steps).  Python ints are `Int`/`Nat`,
Python float division plus `math.ceil` is exact rational division plus
`Int.ceil`.
-/

namespace KeyHard

/-! ### Crawler: page-budget rebalancing (`Scraper.crop_pages`) -/

/-- `optimal_pages_per_cat n L d` models
`ceil((n_products / leaf_count) / products_per_page)` from
`crop_pages` (scraper.py lines 225-228), with exact rational division
in place of Python float division. -/
def optimal_pages_per_cat (nProducts : ℤ) (leafCount : ℕ) (density : ℤ) : ℤ :=
  Int.ceil ((nProducts : ℚ) / (leafCount : ℚ) / (density : ℚ))

/-- The main loop of `crop_pages` (scraper.py lines 231-254): walks the
(sorted) list of leaf page counts keeping a running `pages_debt`,
returning the new page counts together with the residual debt.
`pages := n - 1` reserves the last, possibly partial page; a leaf with
`pages > optimal` is trimmed to `optimal + gain` where
`gain = min (pages - optimal) debt` (the Python guard `if pages_debt:`
is equivalent because `min (pages - optimal) 0 = 0` when
`pages > optimal`); otherwise the leaf is unchanged and the debt grows
by `optimal - pages`. -/
def crop_pages_loop (optimal : ℤ) : ℤ → List ℤ → List ℤ × ℤ
  | debt, [] => ([], debt)
  | debt, n :: rest =>
      let pages := n - 1
      if optimal < pages then
        let gain := min (pages - optimal) debt
        let r := crop_pages_loop optimal (debt - gain) rest
        ((optimal + gain) :: r.1, r.2)
      else
        let r := crop_pages_loop optimal (debt + (optimal - pages)) rest
        (n :: r.1, r.2)

/-- `crop_pages` (scraper.py lines 211-261): sorts the leaf page counts
ascending (the Python `list.sort`; on plain integers any stable sort
yields the same list) and runs the debt loop with initial debt 0.
The result is the list of `number_of_pages` values after rebalancing,
in the sorted processing order. -/
def crop_pages (nProducts density : ℤ) (leafPages : List ℤ) : List ℤ :=
  let sorted := leafPages.insertionSort (fun a b => a ≤ b)
  (crop_pages_loop (optimal_pages_per_cat nProducts leafPages.length density) 0 sorted).1

/-- Total estimated number of products after rebalancing
(`products_estimated` in scraper.py line 254): sum of page counts
times the density. -/
def products_estimated (density : ℤ) (leafPages : List ℤ) : ℤ :=
  (leafPages.map (fun n => n * density)).sum

theorem crop_pages_loop_nil (o d : ℤ) : crop_pages_loop o d [] = ([], d) := rfl

theorem crop_pages_loop_cons_gt (o d n : ℤ) (rest : List ℤ) (h : o < n - 1) :
    crop_pages_loop o d (n :: rest) =
      ((o + min (n - 1 - o) d) :: (crop_pages_loop o (d - min (n - 1 - o) d) rest).1,
       (crop_pages_loop o (d - min (n - 1 - o) d) rest).2) := by
  simp [crop_pages_loop, h]

theorem crop_pages_loop_cons_le (o d n : ℤ) (rest : List ℤ) (h : ¬ o < n - 1) :
    crop_pages_loop o d (n :: rest) =
      (n :: (crop_pages_loop o (d + (o - (n - 1))) rest).1,
       (crop_pages_loop o (d + (o - (n - 1))) rest).2) := by
  simp [crop_pages_loop, h]

/-- One pass of the debt loop never increases any leaf page count, so
the total never increases either: a trimmed leaf gets
`optimal + min (pages - optimal) debt ≤ pages < n`, the others keep
their old count. -/
theorem crop_pages_loop_sum_le (l : List ℤ) :
    ∀ o d : ℤ, ((crop_pages_loop o d l).1).sum ≤ l.sum := by
  induction l with
  | nil => intro o d; simp [crop_pages_loop_nil]
  | cons n rest ih =>
    intro o d
    by_cases h : o < n - 1
    · rw [crop_pages_loop_cons_gt o d n rest h]
      simp only [List.sum_cons]
      have hhead : o + min (n - 1 - o) d ≤ n := by omega
      exact add_le_add hhead (ih o (d - min (n - 1 - o) d))
    · rw [crop_pages_loop_cons_le o d n rest h]
      simp only [List.sum_cons]
      exact add_le_add le_rfl (ih o (d + (o - (n - 1))))

/-- Pointwise monotonicity of the debt loop in the optimal-page target
and the incoming debt: a larger target with at least as much debt can
only produce a pointwise larger (hence larger-sum) result.  The key
observation is that a trimmed leaf is worth `min (n-1) (o + d)` and
the outgoing debt is `max (d + o - (n-1)) 0` in both branches. -/
theorem crop_pages_loop_sum_mono (l : List ℤ) :
    ∀ o o' d d' : ℤ, 0 ≤ d → d ≤ d' → o ≤ o' →
      ((crop_pages_loop o d l).1).sum ≤ ((crop_pages_loop o' d' l).1).sum := by
  induction l with
  | nil => intro o o' d d' _ _ _; simp [crop_pages_loop_nil]
  | cons n rest ih =>
    intro o o' d d' hd hdd hoo
    by_cases h1 : o < n - 1 <;> by_cases h2 : o' < n - 1
    · rw [crop_pages_loop_cons_gt o d n rest h1, crop_pages_loop_cons_gt o' d' n rest h2]
      simp only [List.sum_cons]
      refine add_le_add (by omega) (ih _ _ _ _ (by omega) (by omega) hoo)
    · rw [crop_pages_loop_cons_gt o d n rest h1, crop_pages_loop_cons_le o' d' n rest h2]
      simp only [List.sum_cons]
      refine add_le_add (by omega) (ih _ _ _ _ (by omega) (by omega) hoo)
    · omega
    · rw [crop_pages_loop_cons_le o d n rest h1, crop_pages_loop_cons_le o' d' n rest h2]
      simp only [List.sum_cons]
      refine add_le_add le_rfl (ih _ _ _ _ (by omega) (by omega) hoo)

/-- `crop_pages` never increases the total number of pages, for any
input list (sorting permutes the list and the loop is pointwise
non-increasing). -/
theorem crop_pages_sum_le (nProducts density : ℤ) (l : List ℤ) :
    (crop_pages nProducts density l).sum ≤ l.sum := by
  have hperm : (l.insertionSort (fun a b => a ≤ b)).Perm l :=
    List.perm_insertionSort _ l
  calc (crop_pages nProducts density l).sum
      ≤ (l.insertionSort (fun a b => a ≤ b)).sum :=
        crop_pages_loop_sum_le _ _ 0
    _ = l.sum := hperm.sum_eq

theorem crop_pages_length (nProducts density : ℤ) (l : List ℤ) :
    (crop_pages nProducts density l).length = l.length := by
  have hloop : ∀ (m : List ℤ) (o d : ℤ), ((crop_pages_loop o d m).1).length = m.length := by
    intro m
    induction m with
    | nil => intro o d; simp [crop_pages_loop_nil]
    | cons n rest ih =>
      intro o d
      by_cases h : o < n - 1
      · rw [crop_pages_loop_cons_gt o d n rest h]; simp [ih]
      · rw [crop_pages_loop_cons_le o d n rest h]; simp [ih]
  calc (crop_pages nProducts density l).length
      = (l.insertionSort (fun a b => a ≤ b)).length := hloop _ _ 0
    _ = l.length := List.length_insertionSort _ l

/-- C2 concrete scenario, `optimal = ceil((30/2)/12) = 2`. -/
theorem optimal_pages_30_2_12 : optimal_pages_per_cat 30 2 12 = 2 := by
  unfold optimal_pages_per_cat
  rw [Int.ceil_eq_iff]
  norm_num

/-- **C2.** End-to-end rebalance scenario: two leaves with page counts
{3, 1}, density 12, target `n_products = 30`.  The computed optimal is
`ceil((30/2)/12) = 2`; after the debt loop (the 1-page leaf contributes
debt 2, the 3-page leaf has `usable = 2 = optimal` and stays at 3) the
page counts are `[1, 3]`, and the total number of pages after the
rebalance, 4, does not exceed the original total 4. -/
theorem c2_rebalance_end_to_end :
    optimal_pages_per_cat 30 2 12 = 2 ∧
    crop_pages 30 12 [3, 1] = [1, 3] ∧
    (crop_pages 30 12 [3, 1]).sum ≤ ([3, 1] : List ℤ).sum := by
  refine ⟨optimal_pages_30_2_12, ?_, crop_pages_sum_le 30 12 [3, 1]⟩
  show (crop_pages_loop (optimal_pages_per_cat 30 ([3, 1] : List ℤ).length 12) 0
      (([3, 1] : List ℤ).insertionSort (fun a b => a ≤ b))).1 = [1, 3]
  have h : optimal_pages_per_cat 30 ([3, 1] : List ℤ).length 12 = 2 :=
    optimal_pages_30_2_12
  rw [h]
  decide

/-- **C3, counterexample.** `crop_pages` is not idempotent: with
density 1 and target 4 (so `optimal = 2`), the leaf list `[1, 10]`
rebalances to `[1, 4]` (the 1-page leaf contributes debt 2, granted to
the 10-page leaf), but a second application rebalances `[1, 4]` to
`[1, 3]`: the leaf trimmed to 4 now sees smaller available debt
(2 from the 1-page leaf plus nothing else) and is trimmed further. -/
theorem c3_not_idempotent :
    crop_pages 4 1 (crop_pages 4 1 [1, 10]) ≠ crop_pages 4 1 [1, 10] := by
  have h2 : optimal_pages_per_cat 4 2 1 = 2 := by
    unfold optimal_pages_per_cat
    rw [Int.ceil_eq_iff]
    norm_num
  have hfirst : crop_pages 4 1 [1, 10] = [1, 4] := by
    show (crop_pages_loop (optimal_pages_per_cat 4 ([1, 10] : List ℤ).length 1) 0
        (([1, 10] : List ℤ).insertionSort (fun a b => a ≤ b))).1 = [1, 4]
    rw [show optimal_pages_per_cat 4 ([1, 10] : List ℤ).length 1 = 2 from h2]
    decide
  have hsecond : crop_pages 4 1 [1, 4] = [1, 3] := by
    show (crop_pages_loop (optimal_pages_per_cat 4 ([1, 4] : List ℤ).length 1) 0
        (([1, 4] : List ℤ).insertionSort (fun a b => a ≤ b))).1 = [1, 3]
    rw [show optimal_pages_per_cat 4 ([1, 4] : List ℤ).length 1 = 2 from h2]
    decide
  rw [hfirst, hsecond]
  decide

/-- **C3, amended.** Re-applying `crop_pages` with the same
`n_products` and density can trim leaves further (so the operation is
not idempotent), but it never increases any count: the total number of
pages after the second application is at most the total after the
first, and the number of leaves is unchanged. -/
theorem c3_reapply_nonincreasing (nProducts density : ℤ) (l : List ℤ) :
    (crop_pages nProducts density (crop_pages nProducts density l)).sum ≤
      (crop_pages nProducts density l).sum ∧
    (crop_pages nProducts density (crop_pages nProducts density l)).length =
      (crop_pages nProducts density l).length :=
  ⟨crop_pages_sum_le nProducts density _, crop_pages_length nProducts density _⟩

/-- The optimal-page target is monotone in the product target: with a
fixed positive density and a fixed leaf count,
`ceil((n/L)/density)` is non-decreasing in `n`. -/
theorem optimal_pages_per_cat_mono (leafCount : ℕ) (density : ℤ)
    (hd : 0 < density) {n n' : ℤ} (hnn : n ≤ n') :
    optimal_pages_per_cat n leafCount density ≤ optimal_pages_per_cat n' leafCount density := by
  unfold optimal_pages_per_cat
  apply Int.ceil_le_ceil
  rcases Nat.eq_zero_or_pos leafCount with hL | hL
  · simp [hL]
  · have hLQ : (0 : ℚ) < (leafCount : ℚ) := by exact_mod_cast hL
    have hdQ : (0 : ℚ) < (density : ℚ) := by exact_mod_cast hd
    have h1 : (n : ℚ) ≤ (n' : ℚ) := by exact_mod_cast hnn
    exact div_le_div_of_nonneg_right (div_le_div_of_nonneg_right h1 hLQ.le) hdQ.le

/-- **C4.** For a fixed leaf list and positive density, the total
estimated number of products after rebalancing
(`sum of number_of_pages * density`) is non-decreasing as the target
`n_products` increases: a larger target yields a pointwise larger
optimal-page value, and the debt loop is monotone in the optimal value
and the running debt. -/
theorem c4_products_estimated_mono (leafPages : List ℤ) (density : ℤ)
    (n n' : ℤ) (hd : 0 < density) (hnn : n ≤ n') :
    products_estimated density (crop_pages n density leafPages) ≤
      products_estimated density (crop_pages n' density leafPages) := by
  have hsum : (crop_pages n density leafPages).sum ≤ (crop_pages n' density leafPages).sum := by
    unfold crop_pages
    exact crop_pages_loop_sum_mono _ _ _ 0 0 le_rfl le_rfl
      (optimal_pages_per_cat_mono leafPages.length density hd hnn)
  have hform : ∀ m : List ℤ, products_estimated density m = m.sum * density := by
    intro m
    induction m with
    | nil => simp [products_estimated]
    | cons x xs ih =>
      simp only [products_estimated, List.map_cons, List.sum_cons] at ih ⊢
      rw [ih, add_mul]
  rw [hform, hform]
  exact mul_le_mul_of_nonneg_right hsum (le_of_lt hd)

/-- Witness for C4 at a concrete input: leaves `[3, 1]`, density 12,
targets 24 ≤ 30. -/
theorem c4_products_estimated_mono_witness :
    products_estimated 12 (crop_pages 24 12 [3, 1]) ≤
      products_estimated 12 (crop_pages 30 12 [3, 1]) :=
  c4_products_estimated_mono [3, 1] 12 24 30 (by decide) (by decide)

/-! ### Crawler: pagination discovery and the density measurement
(`Scraper.parse_number_of_pages`, lines 146-173) -/

/-- What pagination discovery observes about one leaf category: the
page count extracted from the paginator (1 when there is no paginator)
and the number of listing entries (`div.product` elements) found on
its first page. -/
structure LeafPage where
  pages : ℕ
  entries : ℕ

/-- Python truthiness of `self.products_per_page`: `None` and `0` are
falsy, any other count is truthy. -/
def ppp_truthy : Option ℕ → Bool
  | none => false
  | some v => v != 0

/-- The density measurement performed while parsing one leaf
(scraper.py lines 165-168): if `products_per_page` is falsy and the
leaf has more than one page, `products_per_page` is set to the number
of listing entries on that page; otherwise it is left alone. -/
def measure_density_step (ppp : Option ℕ) (leaf : LeafPage) : Option ℕ :=
  if ppp_truthy ppp = false ∧ 1 < leaf.pages then some leaf.entries else ppp

/-- Pagination discovery over the leaf categories in traversal order
(`parse_number_of_pages_rec` calls `parse_number_of_pages` once per
leaf); `products_per_page` starts as `None`. -/
def discover_density (leaves : List LeafPage) : Option ℕ :=
  leaves.foldl measure_density_step none

/-- `crop_pages` as actually entered by `parse_categories`:
before the debt loop runs, Python evaluates
`n_products / len(self.leaf_cats)` (a `ZeroDivisionError` when there
are no leaves) and then `optimal_products_per_cat / self.products_per_page`
(a `TypeError` when `products_per_page` is still `None`, a
`ZeroDivisionError` when it is 0). -/
def crop_pages_checked (nProducts : ℤ) (ppp : Option ℕ) (leafPages : List ℤ) :
    Except String (List ℤ) :=
  if leafPages.length = 0 then .error "ZeroDivisionError: division by zero"
  else
    match ppp with
    | none => .error "TypeError: unsupported operand type(s) for /: 'float' and 'NoneType'"
    | some d =>
        if d = 0 then .error "ZeroDivisionError: division by zero"
        else .ok (crop_pages nProducts (d : ℤ) leafPages)

theorem measure_density_keep_truthy (ppp : Option ℕ) (leaf : LeafPage)
    (h : ppp_truthy ppp = true) : measure_density_step ppp leaf = ppp := by
  simp [measure_density_step, h]

theorem discover_density_keep_truthy (leaves : List LeafPage) :
    ∀ acc : Option ℕ, ppp_truthy acc = true →
      leaves.foldl measure_density_step acc = acc := by
  induction leaves with
  | nil => intro acc _; rfl
  | cons leaf rest ih =>
    intro acc h
    rw [List.foldl_cons, measure_density_keep_truthy acc leaf h]
    exact ih acc h

/-- **C9, counterexample.** The claim asserts that whenever at least
one leaf reveals more than one page, `products_per_page` ends up a
positive integer.  A leaf whose first page has a paginator showing 2
pages but zero parsed `div.product` entries refutes this:
`parse_products_per_page` returns `len(soup.find_all(...)) = 0`, so
`products_per_page` becomes 0 (not positive), and `crop_pages` still
fails — with a `ZeroDivisionError` instead of the `TypeError` of the
`None` case. -/
theorem c9_zero_density_counterexample :
    discover_density [⟨2, 0⟩] = some 0 ∧
    ∀ r : List ℤ, crop_pages_checked 30 (discover_density [⟨2, 0⟩]) [2] ≠ .ok r := by
  constructor
  · rfl
  · intro r h
    exact Except.noConfusion h

/-- **C9, amended.** `crop_pages` is only defined when a density has
been measured.  (1) If no leaf reveals more than one page,
`products_per_page` stays `None` and `crop_pages` raises at the
division computing the optimal page count.  (2) If some leaf has more
than one page *and a positive number of listing entries on its first
page*, the measured density is a positive integer and the
missing-density error branch is unreachable: `crop_pages` returns
normally on any nonempty leaf list. -/
theorem c9_density_amended (leaves : List LeafPage) (nProducts : ℤ) :
    ((∀ leaf ∈ leaves, leaf.pages ≤ 1) →
      discover_density leaves = none ∧
      ∀ (counts : List ℤ) (r : List ℤ),
        crop_pages_checked nProducts (discover_density leaves) counts ≠ .ok r) ∧
    ((∃ leaf ∈ leaves, 1 < leaf.pages ∧ 0 < leaf.entries) →
      ∃ k : ℕ, discover_density leaves = some k ∧ 0 < k ∧
        ∀ counts : List ℤ, counts ≠ [] →
          crop_pages_checked nProducts (discover_density leaves) counts =
            .ok (crop_pages nProducts (k : ℤ) counts)) := by
  constructor
  · intro hall
    have hnone : discover_density leaves = none := by
      unfold discover_density
      have : ∀ (ls : List LeafPage), (∀ leaf ∈ ls, leaf.pages ≤ 1) →
          ∀ acc : Option ℕ, ls.foldl measure_density_step acc = acc := by
        intro ls
        induction ls with
        | nil => intro _ acc; rfl
        | cons leaf rest ih =>
          intro h acc
          rw [List.foldl_cons]
          have hstep : measure_density_step acc leaf = acc := by
            have hp : leaf.pages ≤ 1 := h leaf (by simp)
            simp only [measure_density_step]
            have : ¬ (ppp_truthy acc = false ∧ 1 < leaf.pages) := by
              rintro ⟨_, hlt⟩; omega
            simp [this]
          rw [hstep]
          exact ih (fun x hx => h x (by simp [hx])) acc
      exact this leaves hall none
    refine ⟨hnone, ?_⟩
    intro counts r h
    rw [hnone] at h
    unfold crop_pages_checked at h
    by_cases hc : counts.length = 0
    · simp [hc] at h
    · simp [hc] at h
  · intro hex
    have hkey : ∀ (ls : List LeafPage) (acc : Option ℕ),
        (∃ leaf ∈ ls, 1 < leaf.pages ∧ 0 < leaf.entries) →
          ∃ k : ℕ, ls.foldl measure_density_step acc = some k ∧ 0 < k := by
      intro ls
      induction ls with
      | nil => intro acc h; simp at h
      | cons leaf rest ih =>
        intro acc h
        rw [List.foldl_cons]
        by_cases htr : ppp_truthy acc = true
        · rw [measure_density_keep_truthy acc leaf htr,
            discover_density_keep_truthy rest acc htr]
          cases acc with
          | none => simp [ppp_truthy] at htr
          | some v =>
            refine ⟨v, rfl, ?_⟩
            simp only [ppp_truthy, bne_iff_ne, ne_eq] at htr
            omega
        · rcases h with ⟨l0, hl0, hp0, he0⟩
          simp only [List.mem_cons] at hl0
          rcases hl0 with rfl | hl0
          · have hstep : measure_density_step acc l0 = some l0.entries := by
              simp only [measure_density_step]
              have : ppp_truthy acc = false := by
                cases hppp : ppp_truthy acc
                · rfl
                · exact absurd hppp htr
              simp [this, hp0]
            rw [hstep]
            have htr2 : ppp_truthy (some l0.entries) = true := by
              simp only [ppp_truthy, bne_iff_ne, ne_eq]
              omega
            rw [discover_density_keep_truthy rest (some l0.entries) htr2]
            exact ⟨l0.entries, rfl, he0⟩
          · cases hms : measure_density_step acc leaf with
            | none => exact ih none ⟨l0, hl0, hp0, he0⟩
            | some v =>
              by_cases hv : v = 0
              · subst hv
                exact ih (some 0) ⟨l0, hl0, hp0, he0⟩
              · have htr3 : ppp_truthy (some v) = true := by
                  simp only [ppp_truthy, bne_iff_ne, ne_eq]
                  exact hv
                rw [discover_density_keep_truthy rest (some v) htr3]
                exact ⟨v, rfl, Nat.pos_of_ne_zero hv⟩
    rcases hkey leaves none hex with ⟨k, hk, hkpos⟩
    have hdd : discover_density leaves = some k := hk
    refine ⟨k, hdd, hkpos, ?_⟩
    intro counts hc
    rw [hdd]
    unfold crop_pages_checked
    have hlen : ¬ counts.length = 0 := by
      intro h0
      exact hc (List.length_eq_zero.mp h0)
    have hkne : ¬ k = 0 := by omega
    simp [hlen, hkne]

/-- Witness for C9 (amended) at concrete inputs: for part (1) a single
one-page leaf, for part (2) a leaf with 3 pages and 12 entries. -/
theorem c9_density_amended_witness :
    (discover_density [⟨1, 12⟩] = none ∧
      ∀ (counts : List ℤ) (r : List ℤ),
        crop_pages_checked 30 (discover_density [⟨1, 12⟩]) counts ≠ .ok r) ∧
    (∃ k : ℕ, discover_density [⟨3, 12⟩] = some k ∧ 0 < k ∧
      ∀ counts : List ℤ, counts ≠ [] →
        crop_pages_checked 30 (discover_density [⟨3, 12⟩]) counts =
          .ok (crop_pages 30 (k : ℤ) counts)) := by
  constructor
  · exact (c9_density_amended [⟨1, 12⟩] 30).1 (by decide)
  · exact (c9_density_amended [⟨3, 12⟩] 30).2 ⟨⟨3, 12⟩, by simp, by decide, by decide⟩

/-! ### Crawler: category tree cropping (`Scraper.crop_categories_tree`,
scraper.py lines 177-209) -/

/-- A node of the category forest as consumed by the crawler and the
importer: source id, name, ordered children. -/
inductive Cat where
  | mk (cid : ℤ) (cname : String) (children : List Cat)

def Cat.cid : Cat → ℤ
  | .mk i _ _ => i

def Cat.children : Cat → List Cat
  | .mk _ _ cs => cs

theorem list_sizeOf_take_le {α : Type} [SizeOf α] :
    ∀ (n : ℕ) (l : List α), sizeOf (l.take n) ≤ sizeOf l
  | 0, [] => le_refl _
  | 0, x :: xs => by
      simp only [List.take_zero, List.cons.sizeOf_spec]
      have h1 : 0 ≤ sizeOf x := Nat.zero_le _
      have h2 : (1 : ℕ) ≤ 1 + sizeOf x + sizeOf xs := by omega
      simpa using h2
  | _ + 1, [] => le_refl _
  | n + 1, x :: xs => by
      simp only [List.take_succ_cons, List.cons.sizeOf_spec]
      have := list_sizeOf_take_le n xs
      omega

/-- The body of `crop_subcategories` (scraper.py lines 194-204), which
walks one layer of the (already top-cropped) forest: when no layers
are left the node's children are forcibly cleared; otherwise only the
first `n_subcats` children are kept and the recursion descends with
one layer fewer. -/
def crop_layer (nSubcats : ℕ) : ℤ → List Cat → List Cat
  | _, [] => []
  | layersLeft, Cat.mk i nm cs :: rest =>
      (if layersLeft ≤ 0 then Cat.mk i nm []
       else Cat.mk i nm (crop_layer nSubcats (layersLeft - 1) (cs.take nSubcats)))
      :: crop_layer nSubcats layersLeft rest
termination_by layersLeft cats => sizeOf cats
decreasing_by
  · simp only [List.cons.sizeOf_spec, Cat.mk.sizeOf_spec]
    have := list_sizeOf_take_le nSubcats cs
    omega
  · simp only [List.cons.sizeOf_spec]
    omega

/-- `crop_categories_tree` (scraper.py lines 177-209): keeps the first
`n_cats` top-level nodes of a (deep) copy of the tree, then crops
subcategories through `n_layers` layers. -/
def crop_categories_tree (nCats nSubcats : ℕ) (nLayers : ℤ) (tree : List Cat) : List Cat :=
  crop_layer nSubcats nLayers (tree.take nCats)

/-- All children of all the nodes of a forest: the next layer down. -/
def forest_children : List Cat → List Cat
  | [] => []
  | c :: rest => c.children ++ forest_children rest

/-- The nodes of a forest at a given depth, counting the top-level
nodes as depth 0. -/
def nodes_at_depth : ℕ → List Cat → List Cat
  | 0, cs => cs
  | d + 1, cs => nodes_at_depth d (forest_children cs)

theorem crop_layer_nil (ns : ℕ) (L : ℤ) : crop_layer ns L [] = [] := by
  simp [crop_layer]

theorem crop_layer_cons (ns : ℕ) (L : ℤ) (i : ℤ) (nm : String) (cs rest : List Cat) :
    crop_layer ns L (Cat.mk i nm cs :: rest) =
      (if L ≤ 0 then Cat.mk i nm []
       else Cat.mk i nm (crop_layer ns (L - 1) (cs.take ns)))
      :: crop_layer ns L rest := by
  rw [crop_layer]

theorem crop_layer_append (ns : ℕ) (L : ℤ) :
    ∀ xs ys : List Cat, crop_layer ns L (xs ++ ys) = crop_layer ns L xs ++ crop_layer ns L ys := by
  intro xs
  induction xs with
  | nil => intro ys; simp [crop_layer_nil]
  | cons c rest ih =>
    intro ys
    cases c with
    | mk i nm cs =>
      rw [List.cons_append, crop_layer_cons, crop_layer_cons, ih, List.cons_append]

theorem crop_layer_length (ns : ℕ) (L : ℤ) :
    ∀ cs : List Cat, (crop_layer ns L cs).length = cs.length := by
  intro cs
  induction cs with
  | nil => simp [crop_layer_nil]
  | cons c rest ih =>
    cases c with
    | mk i nm cs0 => rw [crop_layer_cons]; simp [ih]

/-- Every node produced by one cropped layer has at most `n_subcats`
children: either they were cleared, or only the first `n_subcats` were
kept. -/
theorem crop_layer_children_le (ns : ℕ) (L : ℤ) :
    ∀ cs : List Cat, ∀ c ∈ crop_layer ns L cs, (Cat.children c).length ≤ ns := by
  intro cs
  induction cs with
  | nil => intro c hc; rw [crop_layer_nil] at hc; simp at hc
  | cons c0 rest ih =>
    cases c0 with
    | mk i nm cs0 =>
      intro c hc
      rw [crop_layer_cons] at hc
      rcases List.mem_cons.mp hc with rfl | hmem
      · by_cases hL : L ≤ 0
        · simp [hL, Cat.children]
        · simp only [hL, if_false, Cat.children]
          rw [crop_layer_length]
          exact (List.length_take_le ns cs0).trans (by simp)
      · exact ih c hmem

/-- Taking all children of a cropped layer yields again a cropped
layer (with one layer fewer) of some list of original nodes. -/
theorem forest_children_crop_layer (ns : ℕ) (L : ℤ) :
    ∀ cs : List Cat, ∃ ds : List Cat,
      forest_children (crop_layer ns L cs) = crop_layer ns (L - 1) ds := by
  intro cs
  induction cs with
  | nil => exact ⟨[], by simp [crop_layer_nil, forest_children]⟩
  | cons c0 rest ih =>
    cases c0 with
    | mk i nm cs0 =>
      rcases ih with ⟨ds, hds⟩
      by_cases hL : L ≤ 0
      · refine ⟨ds, ?_⟩
        rw [crop_layer_cons]
        simp only [hL, if_true]
        simp [forest_children, Cat.children, hds]
      · refine ⟨cs0.take ns ++ ds, ?_⟩
        rw [crop_layer_cons]
        simp only [hL, if_false]
        simp [forest_children, Cat.children, hds, crop_layer_append]

/-- Every node at every depth of a cropped forest has at most
`n_subcats` children. -/
theorem nodes_at_depth_children_le (ns : ℕ) :
    ∀ (d : ℕ) (L : ℤ) (cs : List Cat),
      ∀ c ∈ nodes_at_depth d (crop_layer ns L cs), (Cat.children c).length ≤ ns := by
  intro d
  induction d with
  | zero => intro L cs c hc; exact crop_layer_children_le ns L cs c hc
  | succ d ih =>
    intro L cs c hc
    simp only [nodes_at_depth] at hc
    rcases forest_children_crop_layer ns L cs with ⟨ds, hds⟩
    rw [hds] at hc
    exact ih (L - 1) ds c hc

theorem crop_layer_children_nil (ns : ℕ) (L : ℤ) (hL : L ≤ 0) :
    ∀ cs : List Cat, ∀ c ∈ crop_layer ns L cs, Cat.children c = [] := by
  intro cs
  induction cs with
  | nil => intro c hc; rw [crop_layer_nil] at hc; simp at hc
  | cons c0 rest ih =>
    cases c0 with
    | mk i nm cs0 =>
      intro c hc
      rw [crop_layer_cons] at hc
      rcases List.mem_cons.mp hc with rfl | hmem
      · simp [hL, Cat.children]
      · exact ih c hmem

/-- Every node at depth at least `layersLeft` of a cropped forest has
no children at all. -/
theorem nodes_at_depth_children_nil (ns : ℕ) :
    ∀ (d : ℕ) (L : ℤ) (cs : List Cat), L ≤ (d : ℤ) →
      ∀ c ∈ nodes_at_depth d (crop_layer ns L cs), Cat.children c = [] := by
  intro d
  induction d with
  | zero => intro L cs hL c hc; exact crop_layer_children_nil ns L (by exact_mod_cast hL) cs c hc
  | succ d ih =>
    intro L cs hL c hc
    simp only [nodes_at_depth] at hc
    rcases forest_children_crop_layer ns L cs with ⟨ds, hds⟩
    rw [hds] at hc
    exact ih (L - 1) ds (by omega) c hc

/-- **C5.** For every category forest and positive `n_cats`,
`n_subcats`, `n_layers`, the cropped tree has at most `n_cats`
top-level nodes, every node (in particular every node at depth at most
`n_layers`) has at most `n_subcats` children, and every node at depth
at least `n_layers` (counting top-level nodes as depth 0) — hence
every node beyond depth `n_layers` under either depth convention —
has zero children. -/
theorem c5_crop_categories_tree (tree : List Cat) (nCats nSubcats : ℕ) (nLayers : ℤ)
    (h1 : 0 < nCats) (h2 : 0 < nSubcats) (h3 : 0 < nLayers) :
    (crop_categories_tree nCats nSubcats nLayers tree).length ≤ nCats ∧
    (∀ d : ℕ, ∀ c ∈ nodes_at_depth d (crop_categories_tree nCats nSubcats nLayers tree),
      (Cat.children c).length ≤ nSubcats) ∧
    (∀ d : ℕ, nLayers ≤ (d : ℤ) →
      ∀ c ∈ nodes_at_depth d (crop_categories_tree nCats nSubcats nLayers tree),
      Cat.children c = []) := by
  refine ⟨?_, ?_, ?_⟩
  · unfold crop_categories_tree
    rw [crop_layer_length]
    exact (List.length_take_le nCats tree).trans (by simp)
  · intro d c hc
    exact nodes_at_depth_children_le nSubcats d nLayers (tree.take nCats) c hc
  · intro d hd c hc
    exact nodes_at_depth_children_nil nSubcats d nLayers (tree.take nCats) hd c hc

/-- Witness for C5 at a concrete forest of five nodes with
`n_cats = 1`, `n_subcats = 1`, `n_layers = 1`. -/
theorem c5_crop_categories_tree_witness :
    (crop_categories_tree 1 1 1
        [Cat.mk 1 "a" [Cat.mk 2 "b" [Cat.mk 3 "c" []], Cat.mk 4 "d" []],
         Cat.mk 5 "e" []]).length ≤ 1 ∧
    (∀ d : ℕ, ∀ c ∈ nodes_at_depth d (crop_categories_tree 1 1 1
        [Cat.mk 1 "a" [Cat.mk 2 "b" [Cat.mk 3 "c" []], Cat.mk 4 "d" []],
         Cat.mk 5 "e" []]),
      (Cat.children c).length ≤ 1) ∧
    (∀ d : ℕ, (1 : ℤ) ≤ (d : ℤ) →
      ∀ c ∈ nodes_at_depth d (crop_categories_tree 1 1 1
        [Cat.mk 1 "a" [Cat.mk 2 "b" [Cat.mk 3 "c" []], Cat.mk 4 "d" []],
         Cat.mk 5 "e" []]),
      Cat.children c = []) :=
  c5_crop_categories_tree
    [Cat.mk 1 "a" [Cat.mk 2 "b" [Cat.mk 3 "c" []], Cat.mk 4 "d" []], Cat.mk 5 "e" []]
    1 1 1 (by decide) (by decide) (by decide)

/-! ### Importer: state and the category phase
(`Initializer.create_category` / `create_categories`,
initializer.py lines 211-329) -/

/-- A failure record in `self.failed_operations`.  The Python record is
`{"type": "category"|"product", "data": <original input>, "error": str}`;
the embedding keeps the type tag and the source id of the original
input. -/
inductive FailRec where
  | category (sourceId : ℤ)
  | product (sourceId : ℤ)
deriving DecidableEq

/-- The mutable run state of an `Initializer`: the source→target
category id map, the created/failed ledgers, and — for the embedding —
the trace of ids for which a create request was actually submitted to
the remote system, plus a counter supplying the ids the remote system
hands back. -/
structure InitState where
  categoryIdMap : List (ℤ × ℤ)
  createdCategories : List ℤ
  createdProducts : List ℤ
  failedOps : List FailRec
  submittedCategories : List ℤ
  submittedProducts : List ℤ
  nextId : ℤ
deriving DecidableEq

/-- Remote outcome of one `prestashop.add("categories", ...)` call:
the server returns an id, the call raises
(`PrestaShopWebServiceError` or any other exception), or the call
returns a response with no id in it (initializer.py lines 260-264,
which logs a warning and returns `None` without touching
`failed_operations`). -/
inductive CatOutcome where
  | ok
  | apiError
  | noId
deriving DecidableEq

/-- `create_category` (initializer.py lines 211-281): submits the
create request, on a returned id records the source→target mapping and
the created id, on a raised error appends a `"category"` failure
record, and on a response without id just returns `None`. -/
def create_category (env : ℤ → CatOutcome) (c : Cat) (parentId : ℤ) (s : InitState) :
    Option ℤ × InitState :=
  let s0 := {s with submittedCategories := s.submittedCategories ++ [Cat.cid c]}
  match env (Cat.cid c) with
  | .ok =>
      let nid := s0.nextId
      (some nid,
        {s0 with categoryIdMap := (Cat.cid c, nid) :: s0.categoryIdMap,
                 createdCategories := s0.createdCategories ++ [nid],
                 nextId := nid + 1})
  | .noId => (none, s0)
  | .apiError => (none, {s0 with failedOps := s0.failedOps ++ [FailRec.category (Cat.cid c)]})

/-- `create_categories_recursive` (initializer.py lines 298-316):
pre-order traversal; a node whose creation returned `None` makes the
result `False` and its children are skipped (`continue`); a created
node with children recurses into them with the fresh target id as
parent.  `parentId` is the target id passed into the category schema. -/
def create_categories_rec (env : ℤ → CatOutcome) : List Cat → ℤ → InitState → Bool × InitState
  | [], _, s => (true, s)
  | Cat.mk i nm cs :: rest, parentId, s =>
      let r := create_category env (Cat.mk i nm cs) parentId s
      match r.1 with
      | none =>
          let rr := create_categories_rec env rest parentId r.2
          (false, rr.2)
      | some nid =>
          if cs.isEmpty then
            create_categories_rec env rest parentId r.2
          else
            let rk := create_categories_rec env cs nid r.2
            let rr := create_categories_rec env rest parentId rk.2
            (rk.1 && rr.1, rr.2)
termination_by cats => sizeOf cats
decreasing_by
  all_goals simp only [List.cons.sizeOf_spec, Cat.mk.sizeOf_spec]
  all_goals omega

/-- `create_categories` (initializer.py lines 283-329): nothing to do
returns `False`; otherwise the recursion starts at the PrestaShop
"Home" category id 2. -/
def create_categories (env : ℤ → CatOutcome) (cats : List Cat) (s : InitState) :
    Bool × InitState :=
  if cats.isEmpty then (false, s)
  else create_categories_rec env cats 2 s

/-- The category ids submitted for creation by a traversal of the
given forest: every node whose proper ancestors were all created is
submitted; the children of a node that was not created are never
reached. -/
def reach_ids (env : ℤ → CatOutcome) : List Cat → List ℤ
  | [] => []
  | Cat.mk i _ cs :: rest =>
      match env i with
      | .ok => i :: (reach_ids env cs ++ reach_ids env rest)
      | _ => i :: reach_ids env rest
termination_by cats => sizeOf cats
decreasing_by
  all_goals simp only [List.cons.sizeOf_spec, Cat.mk.sizeOf_spec]
  all_goals omega

/-- The category ids for which a traversal appends a failure record:
exactly the reached nodes whose create raised an API error. -/
def fail_ids (env : ℤ → CatOutcome) : List Cat → List ℤ
  | [] => []
  | Cat.mk i _ cs :: rest =>
      match env i with
      | .ok => fail_ids env cs ++ fail_ids env rest
      | .apiError => i :: fail_ids env rest
      | .noId => fail_ids env rest
termination_by cats => sizeOf cats
decreasing_by
  all_goals simp only [List.cons.sizeOf_spec, Cat.mk.sizeOf_spec]
  all_goals omega

/-- All nodes of a forest, in pre-order. -/
def all_nodes : List Cat → List Cat
  | [] => []
  | Cat.mk i nm cs :: rest => Cat.mk i nm cs :: (all_nodes cs ++ all_nodes rest)
termination_by cats => sizeOf cats
decreasing_by
  all_goals simp only [List.cons.sizeOf_spec, Cat.mk.sizeOf_spec]
  all_goals omega

/-- The source ids of all nodes of a forest. -/
def forest_ids (cs : List Cat) : List ℤ :=
  (all_nodes cs).map Cat.cid

theorem reach_ids_nil (env : ℤ → CatOutcome) : reach_ids env [] = [] := by
  simp [reach_ids]

theorem reach_ids_cons_ok (env : ℤ → CatOutcome) (i : ℤ) (nm : String)
    (cs rest : List Cat) (h : env i = CatOutcome.ok) :
    reach_ids env (Cat.mk i nm cs :: rest) =
      i :: (reach_ids env cs ++ reach_ids env rest) := by
  simp [reach_ids, h]

theorem reach_ids_cons_fail (env : ℤ → CatOutcome) (i : ℤ) (nm : String)
    (cs rest : List Cat) (h : env i ≠ CatOutcome.ok) :
    reach_ids env (Cat.mk i nm cs :: rest) = i :: reach_ids env rest := by
  cases henv : env i with
  | ok => exact absurd henv h
  | apiError => simp [reach_ids, henv]
  | noId => simp [reach_ids, henv]

theorem fail_ids_nil (env : ℤ → CatOutcome) : fail_ids env [] = [] := by
  simp [fail_ids]

theorem fail_ids_cons_ok (env : ℤ → CatOutcome) (i : ℤ) (nm : String)
    (cs rest : List Cat) (h : env i = CatOutcome.ok) :
    fail_ids env (Cat.mk i nm cs :: rest) = fail_ids env cs ++ fail_ids env rest := by
  simp [fail_ids, h]

theorem fail_ids_cons_apiError (env : ℤ → CatOutcome) (i : ℤ) (nm : String)
    (cs rest : List Cat) (h : env i = CatOutcome.apiError) :
    fail_ids env (Cat.mk i nm cs :: rest) = i :: fail_ids env rest := by
  simp [fail_ids, h]

theorem fail_ids_cons_noId (env : ℤ → CatOutcome) (i : ℤ) (nm : String)
    (cs rest : List Cat) (h : env i = CatOutcome.noId) :
    fail_ids env (Cat.mk i nm cs :: rest) = fail_ids env rest := by
  simp [fail_ids, h]

theorem all_nodes_nil : all_nodes [] = [] := by
  simp [all_nodes]

theorem all_nodes_cons (i : ℤ) (nm : String) (cs rest : List Cat) :
    all_nodes (Cat.mk i nm cs :: rest) =
      Cat.mk i nm cs :: (all_nodes cs ++ all_nodes rest) := by
  simp [all_nodes]

/-- Ledger characterization of the category traversal: the submitted
trace grows by exactly the reachable ids, and the failure ledger grows
by exactly one `"category"` record per reached node whose create
raised. -/
theorem create_categories_rec_ledgers (env : ℤ → CatOutcome) :
    ∀ (cs : List Cat) (parentId : ℤ) (s : InitState),
      ((create_categories_rec env cs parentId s).2).submittedCategories
          = s.submittedCategories ++ reach_ids env cs ∧
      ((create_categories_rec env cs parentId s).2).failedOps
          = s.failedOps ++ (fail_ids env cs).map FailRec.category
  | [], parentId, s => by
      simp [create_categories_rec, reach_ids_nil, fail_ids_nil]
  | Cat.mk i nm cs :: rest, parentId, s => by
      have ihcs := create_categories_rec_ledgers env cs
      have ihrest := create_categories_rec_ledgers env rest
      have hsubcs : ∀ (p : ℤ) (st : InitState),
          (create_categories_rec env cs p st).2.submittedCategories
            = st.submittedCategories ++ reach_ids env cs := fun p st => (ihcs p st).1
      have hfailcs : ∀ (p : ℤ) (st : InitState),
          (create_categories_rec env cs p st).2.failedOps
            = st.failedOps ++ (fail_ids env cs).map FailRec.category := fun p st => (ihcs p st).2
      have hsubrest : ∀ (p : ℤ) (st : InitState),
          (create_categories_rec env rest p st).2.submittedCategories
            = st.submittedCategories ++ reach_ids env rest := fun p st => (ihrest p st).1
      have hfailrest : ∀ (p : ℤ) (st : InitState),
          (create_categories_rec env rest p st).2.failedOps
            = st.failedOps ++ (fail_ids env rest).map FailRec.category := fun p st => (ihrest p st).2
      rw [create_categories_rec]
      cases henv : env i with
      | ok =>
          simp only [create_category, Cat.cid, henv]
          by_cases hcs : cs.isEmpty = true
          · simp only [hcs, if_true, hsubrest, hfailrest]
            have hcsnil : cs = [] := List.isEmpty_iff.mp hcs
            subst hcsnil
            rw [reach_ids_cons_ok env i nm [] rest henv,
              fail_ids_cons_ok env i nm [] rest henv]
            constructor
            · simp [reach_ids_nil]
            · simp [fail_ids_nil]
          · have hcs2 : cs.isEmpty = false := by
              cases hb : cs.isEmpty
              · rfl
              · exact absurd hb hcs
            simp only [hcs2, Bool.false_eq_true, if_false, hsubrest, hfailrest,
              hsubcs, hfailcs]
            rw [reach_ids_cons_ok env i nm cs rest henv,
              fail_ids_cons_ok env i nm cs rest henv]
            constructor
            · simp
            · simp
      | noId =>
          simp only [create_category, Cat.cid, henv]
          simp only [hsubrest, hfailrest]
          rw [reach_ids_cons_fail env i nm cs rest (by simp [henv]),
            fail_ids_cons_noId env i nm cs rest henv]
          constructor
          · simp
          · rfl
      | apiError =>
          simp only [create_category, Cat.cid, henv]
          simp only [hsubrest, hfailrest]
          rw [reach_ids_cons_fail env i nm cs rest (by simp [henv]),
            fail_ids_cons_apiError env i nm cs rest henv]
          constructor
          · simp
          · simp
termination_by cs => sizeOf cs
decreasing_by
  all_goals simp only [List.cons.sizeOf_spec, Cat.mk.sizeOf_spec]
  all_goals omega

/-- Reached ids are ids of nodes of the forest. -/
theorem reach_ids_subset (env : ℤ → CatOutcome) :
    ∀ (cs : List Cat) (x : ℤ), x ∈ reach_ids env cs → x ∈ forest_ids cs
  | [], x, hx => by rw [reach_ids_nil] at hx; simp at hx
  | Cat.mk i nm cs :: rest, x, hx => by
      unfold forest_ids
      rw [all_nodes_cons]
      simp only [List.map_cons, List.map_append, List.mem_cons, List.mem_append]
      cases henv : env i with
      | ok =>
          rw [reach_ids_cons_ok env i nm cs rest henv] at hx
          rcases List.mem_cons.mp hx with rfl | hx2
          · left; rfl
          · rcases List.mem_append.mp hx2 with hx3 | hx3
            · right; left
              have := reach_ids_subset env cs x hx3
              simpa [forest_ids] using this
            · right; right
              have := reach_ids_subset env rest x hx3
              simpa [forest_ids] using this
      | apiError =>
          rw [reach_ids_cons_fail env i nm cs rest (by simp [henv])] at hx
          rcases List.mem_cons.mp hx with rfl | hx2
          · left; rfl
          · right; right
            have := reach_ids_subset env rest x hx2
            simpa [forest_ids] using this
      | noId =>
          rw [reach_ids_cons_fail env i nm cs rest (by simp [henv])] at hx
          rcases List.mem_cons.mp hx with rfl | hx2
          · left; rfl
          · right; right
            have := reach_ids_subset env rest x hx2
            simpa [forest_ids] using this
termination_by cs => sizeOf cs
decreasing_by
  all_goals simp only [List.cons.sizeOf_spec, Cat.mk.sizeOf_spec]
  all_goals omega

/-- Every top-level node of the forest is reached (submitted),
whatever the outcomes: siblings of a failed node are still
attempted. -/
theorem top_level_mem_reach_ids (env : ℤ → CatOutcome) :
    ∀ (cs : List Cat), ∀ c ∈ cs, Cat.cid c ∈ reach_ids env cs := by
  intro cs
  induction cs with
  | nil => intro c hc; simp at hc
  | cons c0 rest ih =>
    cases c0 with
    | mk i nm cs0 =>
      intro c hc
      rcases List.mem_cons.mp hc with rfl | hc2
      · cases henv : env i with
        | ok => rw [reach_ids_cons_ok env i nm cs0 rest henv]; simp [Cat.cid]
        | apiError =>
            rw [reach_ids_cons_fail env i nm cs0 rest (by simp [henv])]
            simp [Cat.cid]
        | noId =>
            rw [reach_ids_cons_fail env i nm cs0 rest (by simp [henv])]
            simp [Cat.cid]
      · have hmem := ih c hc2
        cases henv : env i with
        | ok =>
            rw [reach_ids_cons_ok env i nm cs0 rest henv]
            simp only [List.mem_cons, List.mem_append]
            right; right; exact hmem
        | apiError =>
            rw [reach_ids_cons_fail env i nm cs0 rest (by simp [henv])]
            exact List.mem_cons_of_mem _ hmem
        | noId =>
            rw [reach_ids_cons_fail env i nm cs0 rest (by simp [henv])]
            exact List.mem_cons_of_mem _ hmem

theorem reach_ids_append (env : ℤ → CatOutcome) :
    ∀ xs ys : List Cat,
      reach_ids env (xs ++ ys) = reach_ids env xs ++ reach_ids env ys := by
  intro xs
  induction xs with
  | nil => intro ys; simp [reach_ids_nil]
  | cons c0 rest ih =>
    cases c0 with
    | mk i nm cs0 =>
      intro ys
      rw [List.cons_append]
      cases henv : env i with
      | ok =>
          rw [reach_ids_cons_ok env i nm cs0 (rest ++ ys) henv,
            reach_ids_cons_ok env i nm cs0 rest henv, ih]
          simp
      | apiError =>
          rw [reach_ids_cons_fail env i nm cs0 (rest ++ ys) (by simp [henv]),
            reach_ids_cons_fail env i nm cs0 rest (by simp [henv]), ih]
          simp
      | noId =>
          rw [reach_ids_cons_fail env i nm cs0 (rest ++ ys) (by simp [henv]),
            reach_ids_cons_fail env i nm cs0 rest (by simp [henv]), ih]
          simp

theorem fail_ids_append (env : ℤ → CatOutcome) :
    ∀ xs ys : List Cat,
      fail_ids env (xs ++ ys) = fail_ids env xs ++ fail_ids env ys := by
  intro xs
  induction xs with
  | nil => intro ys; simp [fail_ids_nil]
  | cons c0 rest ih =>
    cases c0 with
    | mk i nm cs0 =>
      intro ys
      rw [List.cons_append]
      cases henv : env i with
      | ok =>
          rw [fail_ids_cons_ok env i nm cs0 (rest ++ ys) henv,
            fail_ids_cons_ok env i nm cs0 rest henv, ih]
          simp
      | apiError =>
          rw [fail_ids_cons_apiError env i nm cs0 (rest ++ ys) henv,
            fail_ids_cons_apiError env i nm cs0 rest henv, ih]
          simp
      | noId =>
          rw [fail_ids_cons_noId env i nm cs0 (rest ++ ys) henv,
            fail_ids_cons_noId env i nm cs0 rest henv, ih]

/-- A fresh importer run state: empty ledgers and caches; the remote
system will hand out ids from 3 up (1 and 2 are the PrestaShop root
and "Home" categories). -/
def empty_init : InitState :=
  ⟨[], [], [], [], [], [], 3⟩

/-- An environment in which creating category 1 yields a response
without an id, and every other create succeeds. -/
def env_noid_on_1 : ℤ → CatOutcome :=
  fun i => if i = 1 then CatOutcome.noId else CatOutcome.ok

/-- **C6, counterexample.** The claim says a failure record is
appended *whenever* creating a category fails.  But when
`prestashop.add` returns a response without an id (initializer.py
lines 260-264), `create_category` logs a warning and returns `None`
with **no** failure record: on the forest `[1 [2]]` where creating
category 1 takes that branch, the run reports overall failure and
skips the subtree (only category 1 is ever submitted), yet
`failed_operations` stays empty. -/
theorem c6_counterexample :
    (create_categories env_noid_on_1 [Cat.mk 1 "a" [Cat.mk 2 "b" []]] empty_init).1 = false ∧
    ((create_categories env_noid_on_1 [Cat.mk 1 "a" [Cat.mk 2 "b" []]]
        empty_init).2).submittedCategories = [1] ∧
    ((create_categories env_noid_on_1 [Cat.mk 1 "a" [Cat.mk 2 "b" []]]
        empty_init).2).failedOps = [] := by
  refine ⟨?_, ?_, ?_⟩ <;>
    simp [create_categories, create_categories_rec, create_category,
      env_noid_on_1, empty_init, Cat.cid]

/-- **C6, amended.** In the category phase, when creating a category
raises an API error a `"category"` failure record is appended; when
the create merely returns no id, the node still counts as failed but
no record is appended (the counterexample).  In either failure case
the entire subtree below the failed node is skipped — none of its
descendants is ever submitted for creation — while every sibling
(indeed every other top-level node of the traversal, in particular the
siblings following the failed node) is still attempted. -/
theorem c6_failed_category_subtree (env : ℤ → CatOutcome)
    (pre post kids : List Cat) (i : ℤ) (nm : String)
    (parentId : ℤ) (s : InitState)
    (hfail : env i ≠ CatOutcome.ok)
    (hdisj : ∀ d ∈ all_nodes kids,
      Cat.cid d ∉ s.submittedCategories ∧ Cat.cid d ∉ forest_ids pre ∧
      Cat.cid d ∉ forest_ids post ∧ Cat.cid d ≠ i) :
    (env i = CatOutcome.apiError →
      FailRec.category i ∈
        ((create_categories_rec env (pre ++ Cat.mk i nm kids :: post)
          parentId s).2).failedOps) ∧
    (∀ d ∈ all_nodes kids,
      Cat.cid d ∉
        ((create_categories_rec env (pre ++ Cat.mk i nm kids :: post)
          parentId s).2).submittedCategories) ∧
    (∀ d ∈ pre ++ Cat.mk i nm kids :: post,
      Cat.cid d ∈
        ((create_categories_rec env (pre ++ Cat.mk i nm kids :: post)
          parentId s).2).submittedCategories) := by
  rcases create_categories_rec_ledgers env (pre ++ Cat.mk i nm kids :: post) parentId s
    with ⟨hsub, hfailed⟩
  refine ⟨?_, ?_, ?_⟩
  · intro happi
    rw [hfailed, fail_ids_append env pre (Cat.mk i nm kids :: post),
      fail_ids_cons_apiError env i nm kids post happi]
    apply List.mem_append_right
    apply List.mem_map_of_mem
    apply List.mem_append_right
    exact List.mem_cons_self i _
  · intro d hd
    rcases hdisj d hd with ⟨hns, hnpre, hnpost, hni⟩
    rw [hsub, reach_ids_append env pre (Cat.mk i nm kids :: post),
      reach_ids_cons_fail env i nm kids post hfail]
    intro hmem
    rcases List.mem_append.mp hmem with hin | hin
    · exact hns hin
    · rcases List.mem_append.mp hin with hin2 | hin2
      · exact hnpre (reach_ids_subset env pre (Cat.cid d) hin2)
      · rcases List.mem_cons.mp hin2 with heq | hin3
        · exact hni heq
        · exact hnpost (reach_ids_subset env post (Cat.cid d) hin3)
  · intro d hd
    rw [hsub]
    apply List.mem_append_right
    exact top_level_mem_reach_ids env (pre ++ Cat.mk i nm kids :: post) d hd

/-- Witness for C6 (amended): creating category 1 raises an API error
while its sibling 4 succeeds; the child 2 and grandchild 3 are never
submitted, both top-level nodes are attempted, and the failure record
for 1 is in the ledger. -/
theorem c6_failed_category_subtree_witness :
    ((fun i => if i = 1 then CatOutcome.apiError else CatOutcome.ok) 1 = CatOutcome.apiError →
      FailRec.category 1 ∈
        ((create_categories_rec (fun i => if i = 1 then CatOutcome.apiError else CatOutcome.ok)
          ([] ++ Cat.mk 1 "a" [Cat.mk 2 "b" [Cat.mk 3 "c" []]] :: [Cat.mk 4 "d" []])
          2 empty_init).2).failedOps) ∧
    (∀ d ∈ all_nodes [Cat.mk 2 "b" [Cat.mk 3 "c" []]],
      Cat.cid d ∉
        ((create_categories_rec (fun i => if i = 1 then CatOutcome.apiError else CatOutcome.ok)
          ([] ++ Cat.mk 1 "a" [Cat.mk 2 "b" [Cat.mk 3 "c" []]] :: [Cat.mk 4 "d" []])
          2 empty_init).2).submittedCategories) ∧
    (∀ d ∈ [] ++ Cat.mk 1 "a" [Cat.mk 2 "b" [Cat.mk 3 "c" []]] :: [Cat.mk 4 "d" []],
      Cat.cid d ∈
        ((create_categories_rec (fun i => if i = 1 then CatOutcome.apiError else CatOutcome.ok)
          ([] ++ Cat.mk 1 "a" [Cat.mk 2 "b" [Cat.mk 3 "c" []]] :: [Cat.mk 4 "d" []])
          2 empty_init).2).submittedCategories) :=
  c6_failed_category_subtree
    (fun i => if i = 1 then CatOutcome.apiError else CatOutcome.ok)
    [] [Cat.mk 4 "d" []] [Cat.mk 2 "b" [Cat.mk 3 "c" []]] 1 "a" 2 empty_init
    (by decide)
    (by
      intro d hd
      simp only [all_nodes_cons, all_nodes_nil] at hd
      rcases List.mem_cons.mp hd with rfl | hd2
      · refine ⟨by simp [empty_init], by simp [forest_ids, all_nodes_nil], ?_, by simp [Cat.cid]⟩
        simp [forest_ids, all_nodes_cons, all_nodes_nil, Cat.cid]
      · simp only [List.append_nil, List.mem_cons] at hd2
        rcases hd2 with rfl | hd3
        · refine ⟨by simp [empty_init], by simp [forest_ids, all_nodes_nil], ?_, by simp [Cat.cid]⟩
          simp [forest_ids, all_nodes_cons, all_nodes_nil, Cat.cid]
        · simp at hd3)

/-! ### Importer: product phase
(`Initializer.create_product` / `create_products`,
initializer.py lines 546-882 and 966-1021) -/

/-- The part of a scraped product record that drives the importer's
bookkeeping: its source id and its source category id.  The remaining
fields (name, price text, attributes, tags, shipping schedule, image
pointers) only shape the XML payload of the create request and never
touch the ledgers, so they are elided from the state model. -/
structure Product where
  pid : ℤ
  category_id : ℤ
deriving DecidableEq

/-- `create_product` (initializer.py lines 546-882).  The category
mapping is resolved first; a missing (or falsy) mapping appends one
`"product"` failure record and returns `None` before any request is
submitted.  Otherwise the create request is submitted; the remote
outcome is the oracle `env` applied to the product's source id: on a
response with an id the product is recorded as created (image upload
and the stock update that follow are best-effort and never touch the
failure ledger), while a response without an id, an API error, or any
other exception appends one `"product"` failure record and returns
`None`. -/
def create_product (env : ℤ → Bool) (p : Product) (s : InitState) : Option ℤ × InitState :=
  match s.categoryIdMap.lookup p.category_id with
  | none =>
      (none, {s with failedOps := s.failedOps ++ [FailRec.product p.pid]})
  | some cid =>
      if cid = 0 then
        (none, {s with failedOps := s.failedOps ++ [FailRec.product p.pid]})
      else
        let s1 := {s with submittedProducts := s.submittedProducts ++ [p.pid]}
        if env p.pid then
          let nid := s1.nextId
          (some nid,
            {s1 with createdProducts := s1.createdProducts ++ [nid], nextId := nid + 1})
        else
          (none, {s1 with failedOps := s1.failedOps ++ [FailRec.product p.pid]})

/-- The worker-pool loop of `create_products` (initializer.py lines
995-1015): every record is processed exactly once and each ledger
append happens under `self.lock`, so any pool execution is a
linearization of the per-record steps; the loop counts created and
failed records as `as_completed` does. -/
def create_products_loop (env : ℤ → Bool) : List Product → InitState → (ℕ × ℕ) × InitState
  | [], s => ((0, 0), s)
  | p :: rest, s =>
      let r := create_product env p s
      let rr := create_products_loop env rest r.2
      match r.1 with
      | some _ => ((rr.1.1 + 1, rr.1.2), rr.2)
      | none => ((rr.1.1, rr.1.2 + 1), rr.2)

/-- `create_products` (initializer.py lines 966-1021): nothing loaded
returns `False`; a falsy `limit` (Python `None` or `0`) keeps the whole
list, otherwise the first `limit` records are taken; the run returns
`True` iff `failed_count == 0`. -/
def create_products (env : ℤ → Bool) (limit : Option ℕ) (products : List Product)
    (s : InitState) : Bool × InitState :=
  if products.isEmpty then (false, s)
  else
    let todo := match limit with
      | none => products
      | some l => if l = 0 then products else products.take l
    let r := create_products_loop env todo s
    (r.1.2 == 0, r.2)

/-- **C7.** For every product record whose `category_id` has no entry
in the category id mapping, `create_product` returns no id, appends
exactly one `"product"` failure record, and submits no product create
request. -/
theorem c7_unmapped_category (env : ℤ → Bool) (p : Product) (s : InitState)
    (h : s.categoryIdMap.lookup p.category_id = none) :
    (create_product env p s).1 = none ∧
    ((create_product env p s).2).failedOps = s.failedOps ++ [FailRec.product p.pid] ∧
    ((create_product env p s).2).submittedProducts = s.submittedProducts := by
  simp [create_product, h]

/-- Witness for C7: a fresh run state has an empty category map, so
any record, here product 7 in category 5, fails with one record. -/
theorem c7_unmapped_category_witness :
    (create_product (fun _ => true) ⟨7, 5⟩ empty_init).1 = none ∧
    ((create_product (fun _ => true) ⟨7, 5⟩ empty_init).2).failedOps =
      empty_init.failedOps ++ [FailRec.product 7] ∧
    ((create_product (fun _ => true) ⟨7, 5⟩ empty_init).2).submittedProducts =
      empty_init.submittedProducts :=
  c7_unmapped_category (fun _ => true) ⟨7, 5⟩ empty_init (by rfl)

/-- Each `create_product` call either returns an id and leaves the
failure ledger unchanged, or returns `None` and appends exactly one
`"product"` record. -/
theorem create_product_ledger (env : ℤ → Bool) (p : Product) (s : InitState) :
    ((create_product env p s).1 = none ∧
      ((create_product env p s).2).failedOps = s.failedOps ++ [FailRec.product p.pid]) ∨
    ((create_product env p s).1 ≠ none ∧
      ((create_product env p s).2).failedOps = s.failedOps) := by
  unfold create_product
  cases hmap : s.categoryIdMap.lookup p.category_id with
  | none => left; simp
  | some cid =>
      by_cases hcid : cid = 0
      · left; simp [hcid]
      · by_cases henv : env p.pid
        · right; simp [hcid, henv]
        · left; simp [hcid, henv]

/-- The loop's failure counter counts exactly the records appended to
the failure ledger during the loop. -/
theorem create_products_loop_failed (env : ℤ → Bool) :
    ∀ (ps : List Product) (s : InitState),
      ∃ t : List FailRec,
        ((create_products_loop env ps s).2).failedOps = s.failedOps ++ t ∧
        t.length = (create_products_loop env ps s).1.2 := by
  intro ps
  induction ps with
  | nil => intro s; exact ⟨[], by simp [create_products_loop], by simp [create_products_loop]⟩
  | cons p rest ih =>
    intro s
    rcases ih (create_product env p s).2 with ⟨t, ht, htlen⟩
    rcases create_product_ledger env p s with ⟨h1, h2⟩ | ⟨h1, h2⟩
    · refine ⟨FailRec.product p.pid :: t, ?_, ?_⟩
      · simp only [create_products_loop]
        cases hr : (create_product env p s).1 with
        | none => simp only [ht, h2]; simp
        | some v => rw [hr] at h1; exact absurd h1 (by simp)
      · simp only [create_products_loop]
        cases hr : (create_product env p s).1 with
        | none => simp [htlen]
        | some v => rw [hr] at h1; exact absurd h1 (by simp)
    · refine ⟨t, ?_, ?_⟩
      · simp only [create_products_loop]
        cases hr : (create_product env p s).1 with
        | none => rw [hr] at h1; exact absurd rfl h1
        | some v => simp only [ht, h2]
      · simp only [create_products_loop]
        cases hr : (create_product env p s).1 with
        | none => rw [hr] at h1; exact absurd rfl h1
        | some v => simp [htlen]

/-- **C8.** `create_products` returns success only if zero failures
were recorded across the run: whenever it returns `True`, the failure
ledger is exactly what it was before the run — equivalently, if any
failure record was recorded during the run it returns `False`. -/
theorem c8_success_means_no_failures (env : ℤ → Bool) (limit : Option ℕ)
    (products : List Product) (s : InitState)
    (h : (create_products env limit products s).1 = true) :
    ((create_products env limit products s).2).failedOps = s.failedOps := by
  unfold create_products at h ⊢
  by_cases hne : products.isEmpty
  · simp [hne] at h
  · simp only [hne, Bool.false_eq_true, if_false] at h ⊢
    generalize hT : (match limit with
      | none => products
      | some l => if l = 0 then products else products.take l) = todo at h ⊢
    rcases create_products_loop_failed env todo s with ⟨t, ht, htlen⟩
    have hzero : (create_products_loop env todo s).1.2 = 0 := by simpa using h
    have htnil : t = [] := List.length_eq_zero.mp (by rw [htlen, hzero])
    rw [ht, htnil, List.append_nil]

/-- Witness for C8: one product in a mapped category, remote create
succeeding — the run returns `True` and the failure ledger is
unchanged. -/
theorem c8_success_means_no_failures_witness :
    ((create_products (fun _ => true) none [⟨7, 5⟩]
        {empty_init with categoryIdMap := [(5, 4)]}).2).failedOps =
      ({empty_init with categoryIdMap := [(5, 4)]} : InitState).failedOps :=
  c8_success_means_no_failures (fun _ => true) none [⟨7, 5⟩]
    {empty_init with categoryIdMap := [(5, 4)]} (by rfl)

/-! ### Importer: auxiliary-entity get-or-create caches
(`get_or_create_manufacturer` / `get_or_create_feature` /
`get_or_create_feature_value`, initializer.py lines 331-494).

All three operations hold `self.cache_lock` across the whole remote
round trip (lookup and create), so a concurrent execution is a
sequence of atomic calls.  Each call's remote behaviour is an oracle:
the search round trip either succeeds or raises; the create round trip
either returns an id, raises before the remote entity exists, or
raises (or returns an unusable response, e.g. the string case of
`get_or_create_manufacturer`) after the entity was created remotely
but before it could be cached. -/

/-- Outcome of the `prestashop.add` round trip inside a get-or-create
call. -/
inductive AddResult where
  | ok
  | failNoEntity
  | failEntityCreated
deriving DecidableEq

/-- Remote behaviour of one get-or-create call. -/
structure CallEnv where
  searchOk : Bool
  addRes : AddResult
deriving DecidableEq

/-- The failure-free remote behaviour. -/
def all_ok_env : CallEnv := ⟨true, AddResult.ok⟩

/-- State touched by a by-name get-or-create cache
(`manufacturers_cache` for `get_or_create_manufacturer`,
`features_cache` for `get_or_create_feature`; the two functions have
identical structure over their own cache).  `remote` is the remote
system's name → id table for that entity kind; `created` records,
per run, the keys for which a create call actually brought a remote
entity into existence; `nextId` supplies server-side ids. -/
structure GocState where
  cache : List (String × ℤ)
  remote : List (String × ℤ)
  created : List String
  nextId : ℤ
deriving DecidableEq

/-- `get_or_create_manufacturer` (initializer.py lines 331-381) and,
identically over its own cache, `get_or_create_feature` (lines
383-430): a falsy name returns `None`; under the lock the cache is
checked, then the remote is searched by exact name (limit 1), then a
new entity is created.  A raised search, a raised create, and an
unusable create response all return `None`; only a found or freshly
created id is written to the cache. -/
def get_or_create_by_name (env : CallEnv) (name : String) (s : GocState) :
    Option ℤ × GocState :=
  if name = "" then (none, s)
  else
    match s.cache.lookup name with
    | some i => (some i, s)
    | none =>
        if env.searchOk = false then (none, s)
        else
          match s.remote.lookup name with
          | some i => (some i, {s with cache := (name, i) :: s.cache})
          | none =>
              match env.addRes with
              | .failNoEntity => (none, s)
              | .failEntityCreated =>
                  (none, {s with remote := (name, s.nextId) :: s.remote,
                                 created := s.created ++ [name], nextId := s.nextId + 1})
              | .ok =>
                  (some s.nextId,
                    {s with cache := (name, s.nextId) :: s.cache,
                            remote := (name, s.nextId) :: s.remote,
                            created := s.created ++ [name], nextId := s.nextId + 1})

/-- A lock-serialized run: one atomic get-or-create call per list
element, collecting every call's returned id. -/
def run_get_or_create : List (CallEnv × String) → GocState → List (Option ℤ) × GocState
  | [], s => ([], s)
  | (env, k) :: rest, s =>
      let r := get_or_create_by_name env k s
      let rr := run_get_or_create rest r.2
      (r.1 :: rr.1, rr.2)

/-- State of the two-level feature-value cache
(`feature_values_cache : feature id → {value → id}`). -/
structure FVState where
  fvcache : List (ℤ × List (String × ℤ))
  remote : List ((ℤ × String) × ℤ)
  created : List (ℤ × String)
  nextId : ℤ
deriving DecidableEq

/-- Lookup through both levels of the feature-value cache. -/
def fv_lookup (c : List (ℤ × List (String × ℤ))) (fid : ℤ) (v : String) : Option ℤ :=
  match c.lookup fid with
  | none => none
  | some inner => inner.lookup v

/-- `if feature_id not in self.feature_values_cache:
self.feature_values_cache[feature_id] = {}` (initializer.py lines
441-442): make sure the outer entry exists. -/
def fv_ensure (c : List (ℤ × List (String × ℤ))) (fid : ℤ) : List (ℤ × List (String × ℤ)) :=
  match c.lookup fid with
  | none => (fid, []) :: c
  | some _ => c

/-- `self.feature_values_cache[feature_id][value] = v_id`: bind a
value id in the inner map of `fid` (dictionary-overwrite semantics via
shadowing). -/
def fv_insert (c : List (ℤ × List (String × ℤ))) (fid : ℤ) (v : String) (i : ℤ) :
    List (ℤ × List (String × ℤ)) :=
  match c.lookup fid with
  | none => (fid, [(v, i)]) :: c
  | some inner => (fid, (v, i) :: inner) :: c

/-- `get_or_create_feature_value` (initializer.py lines 432-494): a
falsy feature id or value returns `None`; under the lock the outer
cache entry is ensured, the two-level cache is checked, the remote is
searched by (feature id, value), and otherwise a new value is
created.  Only a found or freshly created id is bound in the cache. -/
def get_or_create_feature_value (env : CallEnv) (fid : ℤ) (v : String) (s : FVState) :
    Option ℤ × FVState :=
  if fid = 0 ∨ v = "" then (none, s)
  else
    let c1 := fv_ensure s.fvcache fid
    let s1 := {s with fvcache := c1}
    match fv_lookup c1 fid v with
    | some i => (some i, s1)
    | none =>
        if env.searchOk = false then (none, s1)
        else
          match s1.remote.lookup (fid, v) with
          | some i => (some i, {s1 with fvcache := fv_insert c1 fid v i})
          | none =>
              match env.addRes with
              | .failNoEntity => (none, s1)
              | .failEntityCreated =>
                  (none, {s1 with remote := ((fid, v), s1.nextId) :: s1.remote,
                                  created := s1.created ++ [(fid, v)], nextId := s1.nextId + 1})
              | .ok =>
                  (some s1.nextId,
                    {s1 with fvcache := fv_insert c1 fid v s1.nextId,
                             remote := ((fid, v), s1.nextId) :: s1.remote,
                             created := s1.created ++ [(fid, v)], nextId := s1.nextId + 1})

/-- A lock-serialized run of feature-value calls. -/
def run_get_or_create_fv : List (CallEnv × ℤ × String) → FVState → List (Option ℤ) × FVState
  | [], s => ([], s)
  | (env, fid, v) :: rest, s =>
      let r := get_or_create_feature_value env fid v s
      let rr := run_get_or_create_fv rest r.2
      (r.1 :: rr.1, rr.2)

theorem lookup_cons_self {α β : Type} [BEq α] [LawfulBEq α] (k : α) (v : β)
    (l : List (α × β)) : List.lookup k ((k, v) :: l) = some v := by
  simp [List.lookup]

theorem lookup_cons_ne {α β : Type} [BEq α] [LawfulBEq α] (key k : α) (v : β)
    (l : List (α × β)) (h : key ≠ k) :
    List.lookup key ((k, v) :: l) = List.lookup key l := by
  have hb : (key == k) = false := beq_false_of_ne h
  simp [List.lookup, hb]

/-- The creation invariant for one by-name call: if at most one remote
create has happened for `key` so far, and a create for `key` implies
the key is in the remote table, then the same holds after any call —
a second create for the same key is impossible because the first one
put the key into the remote table and the create branch requires a
remote miss. -/
theorem goc_eq_empty_name (env : CallEnv) (s : GocState) :
    get_or_create_by_name env "" s = (none, s) := by
  unfold get_or_create_by_name
  simp

theorem goc_eq_search_fail (env : CallEnv) (k : String) (s : GocState)
    (hn : k ≠ "") (hc : s.cache.lookup k = none) (hs : env.searchOk = false) :
    get_or_create_by_name env k s = (none, s) := by
  unfold get_or_create_by_name
  simp [hn, hc, hs]

theorem goc_eq_remote_hit (env : CallEnv) (k : String) (s : GocState) (i : ℤ)
    (hn : k ≠ "") (hc : s.cache.lookup k = none) (hs : env.searchOk = true)
    (hr : s.remote.lookup k = some i) :
    get_or_create_by_name env k s = (some i, {s with cache := (k, i) :: s.cache}) := by
  unfold get_or_create_by_name
  simp [hn, hc, hs, hr]

theorem goc_eq_add_fail_no_entity (env : CallEnv) (k : String) (s : GocState)
    (hn : k ≠ "") (hc : s.cache.lookup k = none) (hs : env.searchOk = true)
    (hr : s.remote.lookup k = none) (ha : env.addRes = AddResult.failNoEntity) :
    get_or_create_by_name env k s = (none, s) := by
  unfold get_or_create_by_name
  simp [hn, hc, hs, hr, ha]

theorem goc_eq_add_fail_created (env : CallEnv) (k : String) (s : GocState)
    (hn : k ≠ "") (hc : s.cache.lookup k = none) (hs : env.searchOk = true)
    (hr : s.remote.lookup k = none) (ha : env.addRes = AddResult.failEntityCreated) :
    get_or_create_by_name env k s =
      (none, {s with remote := (k, s.nextId) :: s.remote,
                     created := s.created ++ [k], nextId := s.nextId + 1}) := by
  unfold get_or_create_by_name
  simp [hn, hc, hs, hr, ha]

theorem goc_eq_add_ok (env : CallEnv) (k : String) (s : GocState)
    (hn : k ≠ "") (hc : s.cache.lookup k = none) (hs : env.searchOk = true)
    (hr : s.remote.lookup k = none) (ha : env.addRes = AddResult.ok) :
    get_or_create_by_name env k s =
      (some s.nextId,
        {s with cache := (k, s.nextId) :: s.cache,
                remote := (k, s.nextId) :: s.remote,
                created := s.created ++ [k], nextId := s.nextId + 1}) := by
  unfold get_or_create_by_name
  simp [hn, hc, hs, hr, ha]

theorem count_singleton_ne {α : Type} [BEq α] [LawfulBEq α] (k key : α) (hkk : k ≠ key) :
    List.count key [k] = 0 := by
  have hb : (k == key) = false := beq_false_of_ne hkk
  simp [List.count_cons, hb]

/-- A cache hit returns the cached id and leaves the state alone. -/
theorem goc_cache_hit (env : CallEnv) (name : String) (s : GocState) (i : ℤ)
    (hn : name ≠ "") (hc : s.cache.lookup name = some i) :
    get_or_create_by_name env name s = (some i, s) := by
  unfold get_or_create_by_name
  simp [hn, hc]

theorem goc_step_invariant (env : CallEnv) (k key : String) (s : GocState)
    (h1 : s.created.count key ≤ 1)
    (h2 : 1 ≤ s.created.count key → ((s.remote.lookup key).isSome = true)) :
    ((get_or_create_by_name env k s).2).created.count key ≤ 1 ∧
    (1 ≤ ((get_or_create_by_name env k s).2).created.count key →
      ((((get_or_create_by_name env k s).2).remote.lookup key).isSome = true)) := by
  by_cases hn : k = ""
  · subst hn
    rw [goc_eq_empty_name]
    exact ⟨h1, h2⟩
  cases hc : s.cache.lookup k with
  | some i =>
      rw [goc_cache_hit env k s i hn hc]
      exact ⟨h1, h2⟩
  | none =>
  cases hsb : env.searchOk with
  | false =>
      rw [goc_eq_search_fail env k s hn hc hsb]
      exact ⟨h1, h2⟩
  | true =>
  cases hr : s.remote.lookup k with
  | some i =>
      rw [goc_eq_remote_hit env k s i hn hc hsb hr]
      exact ⟨h1, h2⟩
  | none =>
  have hcount0 : k = key → s.created.count key = 0 := by
    intro hkk
    subst hkk
    by_contra hne
    have hge : 1 ≤ s.created.count k := Nat.one_le_iff_ne_zero.mpr hne
    have := h2 hge
    rw [hr] at this
    simp at this
  have hcreated : ∀ hkk : ¬ k = key,
      List.count key (s.created ++ [k]) = List.count key s.created := by
    intro hkk
    rw [List.count_append, count_singleton_ne k key hkk]
    omega
  cases henv : env.addRes with
  | failNoEntity =>
      rw [goc_eq_add_fail_no_entity env k s hn hc hsb hr henv]
      exact ⟨h1, h2⟩
  | failEntityCreated =>
      rw [goc_eq_add_fail_created env k s hn hc hsb hr henv]
      by_cases hkk : k = key
      · subst hkk
        refine ⟨?_, ?_⟩
        · simp only [List.count_append, hcount0 rfl]
          simp
        · intro _
          rw [lookup_cons_self]
          rfl
      · refine ⟨?_, ?_⟩
        · simp only [hcreated hkk]
          exact h1
        · intro hge
          rw [lookup_cons_ne key k s.nextId s.remote (fun h => hkk h.symm)]
          apply h2
          rw [hcreated hkk] at hge
          exact hge
  | ok =>
      rw [goc_eq_add_ok env k s hn hc hsb hr henv]
      by_cases hkk : k = key
      · subst hkk
        refine ⟨?_, ?_⟩
        · simp only [List.count_append, hcount0 rfl]
          simp
        · intro _
          rw [lookup_cons_self]
          rfl
      · refine ⟨?_, ?_⟩
        · simp only [hcreated hkk]
          exact h1
        · intro hge
          rw [lookup_cons_ne key k s.nextId s.remote (fun h => hkk h.symm)]
          apply h2
          rw [hcreated hkk] at hge
          exact hge

/-- The creation invariant holds across any lock-serialized run. -/
theorem run_goc_invariant (key : String) :
    ∀ (calls : List (CallEnv × String)) (s : GocState),
      s.created.count key ≤ 1 →
      (1 ≤ s.created.count key → ((s.remote.lookup key).isSome = true)) →
      ((run_get_or_create calls s).2).created.count key ≤ 1 := by
  intro calls
  induction calls with
  | nil => intro s h1 _; exact h1
  | cons call rest ih =>
    intro s h1 h2
    rcases call with ⟨env, k⟩
    rcases goc_step_invariant env k key s h1 h2 with ⟨h1s, h2s⟩
    simp only [run_get_or_create]
    exact ih _ h1s h2s

/-- A failure-free call on a completely fresh key creates the entity:
it returns the new id and binds it in both the cache and the remote
table. -/
theorem goc_fresh (name : String) (s : GocState)
    (hn : name ≠ "") (hc : s.cache.lookup name = none) (hr : s.remote.lookup name = none) :
    get_or_create_by_name all_ok_env name s =
      (some s.nextId,
        ⟨(name, s.nextId) :: s.cache, (name, s.nextId) :: s.remote,
         s.created ++ [name], s.nextId + 1⟩) := by
  unfold get_or_create_by_name
  simp [hn, hc, hr, all_ok_env]

/-- Once the key is cached, any number of further failure-free calls
all return the cached id without touching the state. -/
theorem run_goc_cache_hits (name : String) (i : ℤ) (hn : name ≠ "") :
    ∀ (m : ℕ) (s : GocState), s.cache.lookup name = some i →
      run_get_or_create (List.replicate m (all_ok_env, name)) s =
        (List.replicate m (some i), s) := by
  intro m
  induction m with
  | zero => intro s _; rfl
  | succ m ih =>
    intro s hc
    simp only [List.replicate_succ, run_get_or_create, goc_cache_hit all_ok_env name s i hn hc,
      ih s hc]

theorem fv_lookup_ensure (c : List (ℤ × List (String × ℤ))) (fid f : ℤ) (w : String) :
    fv_lookup (fv_ensure c fid) f w = fv_lookup c f w := by
  unfold fv_ensure
  cases hl : c.lookup fid with
  | some inner => rfl
  | none =>
      by_cases hf : f = fid
      · subst hf
        unfold fv_lookup
        rw [lookup_cons_self, hl]
        simp [List.lookup]
      · unfold fv_lookup
        rw [lookup_cons_ne f fid [] c hf]

theorem fv_lookup_insert_self (c : List (ℤ × List (String × ℤ))) (fid : ℤ) (v : String)
    (i : ℤ) : fv_lookup (fv_insert c fid v i) fid v = some i := by
  unfold fv_insert
  cases hl : c.lookup fid with
  | none =>
      unfold fv_lookup
      rw [lookup_cons_self]
      simp [List.lookup]
  | some inner =>
      unfold fv_lookup
      rw [lookup_cons_self]
      simp [List.lookup]

theorem fv_lookup_some_ensure_eq (c : List (ℤ × List (String × ℤ))) (fid : ℤ) (v : String)
    (i : ℤ) (h : fv_lookup c fid v = some i) : fv_ensure c fid = c := by
  unfold fv_lookup at h
  unfold fv_ensure
  cases hl : c.lookup fid with
  | some inner => rfl
  | none => rw [hl] at h; exact Option.noConfusion h

theorem fv_eq_guard (env : CallEnv) (fid : ℤ) (v : String) (s : FVState)
    (h : fid = 0 ∨ v = "") :
    get_or_create_feature_value env fid v s = (none, s) := by
  unfold get_or_create_feature_value
  simp [h]

theorem fv_eq_cache_hit (env : CallEnv) (fid : ℤ) (v : String) (s : FVState) (i : ℤ)
    (hg1 : ¬ fid = 0) (hg2 : ¬ v = "") (hc : fv_lookup s.fvcache fid v = some i) :
    get_or_create_feature_value env fid v s = (some i, s) := by
  unfold get_or_create_feature_value
  rw [fv_lookup_some_ensure_eq s.fvcache fid v i hc]
  simp [hg1, hg2, hc]

theorem fv_eq_search_fail (env : CallEnv) (fid : ℤ) (v : String) (s : FVState)
    (hg1 : ¬ fid = 0) (hg2 : ¬ v = "")
    (hc : fv_lookup s.fvcache fid v = none) (hs : env.searchOk = false) :
    get_or_create_feature_value env fid v s =
      (none, {s with fvcache := fv_ensure s.fvcache fid}) := by
  unfold get_or_create_feature_value
  have hck : fv_lookup (fv_ensure s.fvcache fid) fid v = none :=
    (fv_lookup_ensure s.fvcache fid fid v).trans hc
  simp [hg1, hg2, hck, hs]

theorem fv_eq_remote_hit (env : CallEnv) (fid : ℤ) (v : String) (s : FVState) (i : ℤ)
    (hg1 : ¬ fid = 0) (hg2 : ¬ v = "")
    (hc : fv_lookup s.fvcache fid v = none) (hs : env.searchOk = true)
    (hr : s.remote.lookup (fid, v) = some i) :
    get_or_create_feature_value env fid v s =
      (some i,
        {s with fvcache := fv_insert (fv_ensure s.fvcache fid) fid v i}) := by
  unfold get_or_create_feature_value
  have hck : fv_lookup (fv_ensure s.fvcache fid) fid v = none :=
    (fv_lookup_ensure s.fvcache fid fid v).trans hc
  simp [hg1, hg2, hck, hs, hr]

theorem fv_eq_add_fail_no_entity (env : CallEnv) (fid : ℤ) (v : String) (s : FVState)
    (hg1 : ¬ fid = 0) (hg2 : ¬ v = "")
    (hc : fv_lookup s.fvcache fid v = none) (hs : env.searchOk = true)
    (hr : s.remote.lookup (fid, v) = none) (ha : env.addRes = AddResult.failNoEntity) :
    get_or_create_feature_value env fid v s =
      (none, {s with fvcache := fv_ensure s.fvcache fid}) := by
  unfold get_or_create_feature_value
  have hck : fv_lookup (fv_ensure s.fvcache fid) fid v = none :=
    (fv_lookup_ensure s.fvcache fid fid v).trans hc
  simp [hg1, hg2, hck, hs, hr, ha]

theorem fv_eq_add_fail_created (env : CallEnv) (fid : ℤ) (v : String) (s : FVState)
    (hg1 : ¬ fid = 0) (hg2 : ¬ v = "")
    (hc : fv_lookup s.fvcache fid v = none) (hs : env.searchOk = true)
    (hr : s.remote.lookup (fid, v) = none) (ha : env.addRes = AddResult.failEntityCreated) :
    get_or_create_feature_value env fid v s =
      (none, {s with fvcache := fv_ensure s.fvcache fid,
                     remote := ((fid, v), s.nextId) :: s.remote,
                     created := s.created ++ [(fid, v)], nextId := s.nextId + 1}) := by
  unfold get_or_create_feature_value
  have hck : fv_lookup (fv_ensure s.fvcache fid) fid v = none :=
    (fv_lookup_ensure s.fvcache fid fid v).trans hc
  simp [hg1, hg2, hck, hs, hr, ha]

theorem fv_eq_add_ok (env : CallEnv) (fid : ℤ) (v : String) (s : FVState)
    (hg1 : ¬ fid = 0) (hg2 : ¬ v = "")
    (hc : fv_lookup s.fvcache fid v = none) (hs : env.searchOk = true)
    (hr : s.remote.lookup (fid, v) = none) (ha : env.addRes = AddResult.ok) :
    get_or_create_feature_value env fid v s =
      (some s.nextId,
        {s with fvcache := fv_insert (fv_ensure s.fvcache fid) fid v s.nextId,
                remote := ((fid, v), s.nextId) :: s.remote,
                created := s.created ++ [(fid, v)], nextId := s.nextId + 1}) := by
  unfold get_or_create_feature_value
  have hck : fv_lookup (fv_ensure s.fvcache fid) fid v = none :=
    (fv_lookup_ensure s.fvcache fid fid v).trans hc
  simp [hg1, hg2, hck, hs, hr, ha]

/-- Creation invariant for one feature-value call, keyed by the pair
(feature id, value). -/
theorem fv_step_invariant (env : CallEnv) (fid : ℤ) (v : String) (key : ℤ × String)
    (s : FVState)
    (h1 : s.created.count key ≤ 1)
    (h2 : 1 ≤ s.created.count key → ((s.remote.lookup key).isSome = true)) :
    ((get_or_create_feature_value env fid v s).2).created.count key ≤ 1 ∧
    (1 ≤ ((get_or_create_feature_value env fid v s).2).created.count key →
      ((((get_or_create_feature_value env fid v s).2).remote.lookup key).isSome = true)) := by
  by_cases hg : fid = 0 ∨ v = ""
  · rw [fv_eq_guard env fid v s hg]
    exact ⟨h1, h2⟩
  push_neg at hg
  rcases hg with ⟨hg1, hg2⟩
  cases hc : fv_lookup s.fvcache fid v with
  | some i =>
      rw [fv_eq_cache_hit env fid v s i hg1 hg2 hc]
      exact ⟨h1, h2⟩
  | none =>
  cases hsb : env.searchOk with
  | false =>
      rw [fv_eq_search_fail env fid v s hg1 hg2 hc hsb]
      exact ⟨h1, h2⟩
  | true =>
  cases hr : s.remote.lookup (fid, v) with
  | some i =>
      rw [fv_eq_remote_hit env fid v s i hg1 hg2 hc hsb hr]
      exact ⟨h1, h2⟩
  | none =>
  have hcount0 : (fid, v) = key → s.created.count key = 0 := by
    intro hkk
    subst hkk
    by_contra hne
    have hge : 1 ≤ s.created.count (fid, v) := Nat.one_le_iff_ne_zero.mpr hne
    have := h2 hge
    rw [hr] at this
    simp at this
  have hcreated : ∀ hkk : ¬ (fid, v) = key,
      List.count key (s.created ++ [(fid, v)]) = List.count key s.created := by
    intro hkk
    rw [List.count_append, count_singleton_ne (fid, v) key hkk]
    omega
  cases henv : env.addRes with
  | failNoEntity =>
      rw [fv_eq_add_fail_no_entity env fid v s hg1 hg2 hc hsb hr henv]
      exact ⟨h1, h2⟩
  | failEntityCreated =>
      rw [fv_eq_add_fail_created env fid v s hg1 hg2 hc hsb hr henv]
      by_cases hkk : (fid, v) = key
      · subst hkk
        refine ⟨?_, ?_⟩
        · simp only [List.count_append, hcount0 rfl]
          simp
        · intro _
          rw [lookup_cons_self]
          rfl
      · refine ⟨?_, ?_⟩
        · simp only [hcreated hkk]
          exact h1
        · intro hge
          rw [lookup_cons_ne key (fid, v) s.nextId s.remote (fun h => hkk h.symm)]
          apply h2
          rw [hcreated hkk] at hge
          exact hge
  | ok =>
      rw [fv_eq_add_ok env fid v s hg1 hg2 hc hsb hr henv]
      by_cases hkk : (fid, v) = key
      · subst hkk
        refine ⟨?_, ?_⟩
        · simp only [List.count_append, hcount0 rfl]
          simp
        · intro _
          rw [lookup_cons_self]
          rfl
      · refine ⟨?_, ?_⟩
        · simp only [hcreated hkk]
          exact h1
        · intro hge
          rw [lookup_cons_ne key (fid, v) s.nextId s.remote (fun h => hkk h.symm)]
          apply h2
          rw [hcreated hkk] at hge
          exact hge

/-- The feature-value creation invariant holds across any run. -/
theorem run_fv_invariant (key : ℤ × String) :
    ∀ (calls : List (CallEnv × ℤ × String)) (s : FVState),
      s.created.count key ≤ 1 →
      (1 ≤ s.created.count key → ((s.remote.lookup key).isSome = true)) →
      ((run_get_or_create_fv calls s).2).created.count key ≤ 1 := by
  intro calls
  induction calls with
  | nil => intro s h1 _; exact h1
  | cons call rest ih =>
    intro s h1 h2
    rcases call with ⟨env, fid, v⟩
    rcases fv_step_invariant env fid v key s h1 h2 with ⟨h1s, h2s⟩
    simp only [run_get_or_create_fv]
    exact ih _ h1s h2s

/-- A failure-free feature-value call on a fresh (feature id, value)
creates the value and binds it in both cache levels. -/
theorem fv_fresh (fid : ℤ) (v : String) (s : FVState)
    (hg1 : ¬ fid = 0) (hg2 : ¬ v = "")
    (hc : fv_lookup s.fvcache fid v = none) (hr : s.remote.lookup (fid, v) = none) :
    get_or_create_feature_value all_ok_env fid v s =
      (some s.nextId,
        ⟨fv_insert (fv_ensure s.fvcache fid) fid v s.nextId,
         ((fid, v), s.nextId) :: s.remote,
         s.created ++ [(fid, v)], s.nextId + 1⟩) :=
  fv_eq_add_ok all_ok_env fid v s hg1 hg2 hc rfl hr rfl

/-- Once the (feature id, value) pair is cached, further failure-free
calls return the cached id without touching the state. -/
theorem run_fv_cache_hits (fid : ℤ) (v : String) (i : ℤ)
    (hg1 : ¬ fid = 0) (hg2 : ¬ v = "") :
    ∀ (m : ℕ) (s : FVState), fv_lookup s.fvcache fid v = some i →
      run_get_or_create_fv (List.replicate m (all_ok_env, fid, v)) s =
        (List.replicate m (some i), s) := by
  intro m
  induction m with
  | zero => intro s _; rfl
  | succ m ih =>
    intro s hc
    simp only [List.replicate_succ, run_get_or_create_fv,
      fv_eq_cache_hit all_ok_env fid v s i hg1 hg2 hc, ih s hc]

/-- **C1.** Per distinct key, each of the get-or-create operations
(by-name for manufacturers and features, two-level for feature values)
issues at most one remote create over any lock-serialized run,
whatever the per-call failures; and in the failure-free case, any
number of concurrent calls with one identical key, when the entity
does not already exist remotely, issue exactly one remote create and
all return the same id. -/
theorem c1_get_or_create_single_create :
    (∀ (calls : List (CallEnv × String)) (s : GocState) (key : String),
      s.created = [] →
      ((run_get_or_create calls s).2).created.count key ≤ 1) ∧
    (∀ (n : ℕ) (s : GocState) (key : String),
      key ≠ "" → s.cache.lookup key = none → s.remote.lookup key = none →
      s.created = [] →
      (run_get_or_create (List.replicate n (all_ok_env, key)) s).1 =
        List.replicate n (some s.nextId) ∧
      (1 ≤ n →
        ((run_get_or_create (List.replicate n (all_ok_env, key)) s).2).created.count key
          = 1)) ∧
    (∀ (calls : List (CallEnv × ℤ × String)) (s : FVState) (key : ℤ × String),
      s.created = [] →
      ((run_get_or_create_fv calls s).2).created.count key ≤ 1) ∧
    (∀ (n : ℕ) (s : FVState) (fid : ℤ) (v : String),
      fid ≠ 0 → v ≠ "" → fv_lookup s.fvcache fid v = none →
      s.remote.lookup (fid, v) = none → s.created = [] →
      (run_get_or_create_fv (List.replicate n (all_ok_env, fid, v)) s).1 =
        List.replicate n (some s.nextId) ∧
      (1 ≤ n →
        ((run_get_or_create_fv (List.replicate n (all_ok_env, fid, v))
          s).2).created.count (fid, v) = 1)) := by
  refine ⟨?_, ?_, ?_, ?_⟩
  · intro calls s key hcr
    apply run_goc_invariant key calls s
    · rw [hcr]; simp
    · rw [hcr]; simp
  · intro n s key hk hc hr hcr
    cases n with
    | zero =>
        constructor
        · rfl
        · intro h; omega
    | succ m =>
        have hfresh := goc_fresh key s hk hc hr
        have hs1cache :
            ((⟨(key, s.nextId) :: s.cache, (key, s.nextId) :: s.remote,
              s.created ++ [key], s.nextId + 1⟩ : GocState)).cache.lookup key
              = some s.nextId := lookup_cons_self key s.nextId s.cache
        have hrest := run_goc_cache_hits key s.nextId hk m
          ⟨(key, s.nextId) :: s.cache, (key, s.nextId) :: s.remote,
            s.created ++ [key], s.nextId + 1⟩ hs1cache
        constructor
        · simp only [List.replicate_succ, run_get_or_create, hfresh, hrest]
        · intro _
          simp only [List.replicate_succ, run_get_or_create, hfresh, hrest]
          rw [hcr]
          simp
  · intro calls s key hcr
    apply run_fv_invariant key calls s
    · rw [hcr]; simp
    · rw [hcr]; simp
  · intro n s fid v hg1 hg2 hc hr hcr
    cases n with
    | zero =>
        constructor
        · rfl
        · intro h; omega
    | succ m =>
        have hfresh := fv_fresh fid v s hg1 hg2 hc hr
        have hs1cache :
            fv_lookup ((⟨fv_insert (fv_ensure s.fvcache fid) fid v s.nextId,
              ((fid, v), s.nextId) :: s.remote,
              s.created ++ [(fid, v)], s.nextId + 1⟩ : FVState)).fvcache fid v
              = some s.nextId :=
          fv_lookup_insert_self (fv_ensure s.fvcache fid) fid v s.nextId
        have hrest := run_fv_cache_hits fid v s.nextId hg1 hg2 m
          ⟨fv_insert (fv_ensure s.fvcache fid) fid v s.nextId,
            ((fid, v), s.nextId) :: s.remote,
            s.created ++ [(fid, v)], s.nextId + 1⟩ hs1cache
        constructor
        · simp only [List.replicate_succ, run_get_or_create_fv, hfresh, hrest]
        · intro _
          simp only [List.replicate_succ, run_get_or_create_fv, hfresh, hrest]
          rw [hcr]
          simp

/-- Witness for C1: three failure-free calls for the fresh key
`"acme"` (and, for feature values, the fresh pair `(4, "red")`) on an
empty-cache state return the same id three times and record exactly
one create; the general bound instantiated at a two-call run with a
failing then a succeeding create. -/
theorem c1_get_or_create_single_create_witness :
    ((run_get_or_create [(⟨true, AddResult.failNoEntity⟩, "acme"), (all_ok_env, "acme")]
        ⟨[], [], [], 10⟩).2).created.count "acme" ≤ 1 ∧
    ((run_get_or_create (List.replicate 3 (all_ok_env, "acme")) ⟨[], [], [], 10⟩).1 =
        List.replicate 3 (some 10) ∧
      (1 ≤ 3 →
        ((run_get_or_create (List.replicate 3 (all_ok_env, "acme"))
          ⟨[], [], [], 10⟩).2).created.count "acme" = 1)) ∧
    ((run_get_or_create_fv [(⟨false, AddResult.ok⟩, 4, "red"), (all_ok_env, 4, "red")]
        ⟨[], [], [], 20⟩).2).created.count (4, "red") ≤ 1 ∧
    ((run_get_or_create_fv (List.replicate 3 (all_ok_env, 4, "red")) ⟨[], [], [], 20⟩).1 =
        List.replicate 3 (some 20) ∧
      (1 ≤ 3 →
        ((run_get_or_create_fv (List.replicate 3 (all_ok_env, 4, "red"))
          ⟨[], [], [], 20⟩).2).created.count (4, "red") = 1)) :=
  ⟨c1_get_or_create_single_create.1
      [(⟨true, AddResult.failNoEntity⟩, "acme"), (all_ok_env, "acme")]
      ⟨[], [], [], 10⟩ "acme" (by rfl),
   c1_get_or_create_single_create.2.1 3 ⟨[], [], [], 10⟩ "acme"
      (by decide) (by rfl) (by rfl) (by rfl),
   c1_get_or_create_single_create.2.2.1
      [(⟨false, AddResult.ok⟩, 4, "red"), (all_ok_env, 4, "red")]
      ⟨[], [], [], 20⟩ (4, "red") (by rfl),
   c1_get_or_create_single_create.2.2.2 3 ⟨[], [], [], 20⟩ 4 "red"
      (by decide) (by decide) (by rfl) (by rfl) (by rfl)⟩

/-- **C10.** Failures are never cached.  For the by-name caches
(manufacturers and features): any call that returns `None` leaves the
cache exactly as it was; and after such a failure, a later call with
the same (non-empty, still uncached) key goes back to the remote
lookup-and-create and succeeds when the remote cooperates.  For the
two-level feature-value cache: a call that returns `None` adds no
(feature id, value) → id binding (the outer level may gain an empty
entry, which binds nothing), and a later failure-free call with the
same key again performs the remote lookup-and-create and returns an
id. -/
theorem c10_failures_not_cached :
    (∀ (env : CallEnv) (name : String) (s : GocState),
      (get_or_create_by_name env name s).1 = none →
      ((get_or_create_by_name env name s).2).cache = s.cache) ∧
    (∀ (env : CallEnv) (name : String) (s : GocState),
      name ≠ "" → s.cache.lookup name = none →
      (get_or_create_by_name env name s).1 = none →
      ((get_or_create_by_name all_ok_env name
        ((get_or_create_by_name env name s).2)).1).isSome = true) ∧
    (∀ (env : CallEnv) (fid : ℤ) (v : String) (s : FVState),
      (get_or_create_feature_value env fid v s).1 = none →
      ∀ (f : ℤ) (w : String),
        fv_lookup ((get_or_create_feature_value env fid v s).2).fvcache f w =
          fv_lookup s.fvcache f w) ∧
    (∀ (env : CallEnv) (fid : ℤ) (v : String) (s : FVState),
      fid ≠ 0 → v ≠ "" → fv_lookup s.fvcache fid v = none →
      (get_or_create_feature_value env fid v s).1 = none →
      ((get_or_create_feature_value all_ok_env fid v
        ((get_or_create_feature_value env fid v s).2)).1).isSome = true) := by
  have hname_cache : ∀ (env : CallEnv) (name : String) (s : GocState),
      (get_or_create_by_name env name s).1 = none →
      ((get_or_create_by_name env name s).2).cache = s.cache := by
    intro env name s hnone
    by_cases hn : name = ""
    · subst hn; rw [goc_eq_empty_name]
    cases hc : s.cache.lookup name with
    | some i =>
        rw [goc_cache_hit env name s i hn hc] at hnone
        exact Option.noConfusion hnone
    | none =>
    cases hsb : env.searchOk with
    | false => rw [goc_eq_search_fail env name s hn hc hsb]
    | true =>
    cases hr : s.remote.lookup name with
    | some i =>
        rw [goc_eq_remote_hit env name s i hn hc hsb hr] at hnone
        exact Option.noConfusion hnone
    | none =>
    cases henv : env.addRes with
    | failNoEntity => rw [goc_eq_add_fail_no_entity env name s hn hc hsb hr henv]
    | failEntityCreated => rw [goc_eq_add_fail_created env name s hn hc hsb hr henv]
    | ok =>
        rw [goc_eq_add_ok env name s hn hc hsb hr henv] at hnone
        exact Option.noConfusion hnone
  have hname_retry : ∀ (name : String) (s2 : GocState),
      name ≠ "" → s2.cache.lookup name = none →
      ((get_or_create_by_name all_ok_env name s2).1).isSome = true := by
    intro name s2 hn hc
    cases hr : s2.remote.lookup name with
    | some i => rw [goc_eq_remote_hit all_ok_env name s2 i hn hc rfl hr]; rfl
    | none => rw [goc_eq_add_ok all_ok_env name s2 hn hc rfl hr rfl]; rfl
  have hfv_cache : ∀ (env : CallEnv) (fid : ℤ) (v : String) (s : FVState),
      (get_or_create_feature_value env fid v s).1 = none →
      ∀ (f : ℤ) (w : String),
        fv_lookup ((get_or_create_feature_value env fid v s).2).fvcache f w =
          fv_lookup s.fvcache f w := by
    intro env fid v s hnone f w
    by_cases hg : fid = 0 ∨ v = ""
    · rw [fv_eq_guard env fid v s hg]
    push_neg at hg
    rcases hg with ⟨hg1, hg2⟩
    cases hc : fv_lookup s.fvcache fid v with
    | some i =>
        rw [fv_eq_cache_hit env fid v s i hg1 hg2 hc] at hnone
        exact Option.noConfusion hnone
    | none =>
    cases hsb : env.searchOk with
    | false =>
        rw [fv_eq_search_fail env fid v s hg1 hg2 hc hsb]
        exact fv_lookup_ensure s.fvcache fid f w
    | true =>
    cases hr : s.remote.lookup (fid, v) with
    | some i =>
        rw [fv_eq_remote_hit env fid v s i hg1 hg2 hc hsb hr] at hnone
        exact Option.noConfusion hnone
    | none =>
    cases henv : env.addRes with
    | failNoEntity =>
        rw [fv_eq_add_fail_no_entity env fid v s hg1 hg2 hc hsb hr henv]
        exact fv_lookup_ensure s.fvcache fid f w
    | failEntityCreated =>
        rw [fv_eq_add_fail_created env fid v s hg1 hg2 hc hsb hr henv]
        exact fv_lookup_ensure s.fvcache fid f w
    | ok =>
        rw [fv_eq_add_ok env fid v s hg1 hg2 hc hsb hr henv] at hnone
        exact Option.noConfusion hnone
  have hfv_retry : ∀ (fid : ℤ) (v : String) (s2 : FVState),
      fid ≠ 0 → v ≠ "" → fv_lookup s2.fvcache fid v = none →
      ((get_or_create_feature_value all_ok_env fid v s2).1).isSome = true := by
    intro fid v s2 hg1 hg2 hc
    cases hr : s2.remote.lookup (fid, v) with
    | some i => rw [fv_eq_remote_hit all_ok_env fid v s2 i hg1 hg2 hc rfl hr]; rfl
    | none => rw [fv_eq_add_ok all_ok_env fid v s2 hg1 hg2 hc rfl hr rfl]; rfl
  refine ⟨hname_cache, ?_, hfv_cache, ?_⟩
  · intro env name s hn hc hnone
    apply hname_retry name _ hn
    rw [hname_cache env name s hnone]
    exact hc
  · intro env fid v s hg1 hg2 hc hnone
    apply hfv_retry fid v _ hg1 hg2
    rw [hfv_cache env fid v s hnone fid v]
    exact hc

/-- Witness for C10: a search failure for `"acme"` (by-name) and for
`(4, "red")` (feature value) on an empty-cache state returns `None`,
caches nothing, and a failure-free retry succeeds. -/
theorem c10_failures_not_cached_witness :
    (((get_or_create_by_name ⟨false, AddResult.ok⟩ "acme" ⟨[], [], [], 10⟩).2).cache =
      (⟨[], [], [], 10⟩ : GocState).cache) ∧
    (((get_or_create_by_name all_ok_env "acme"
        ((get_or_create_by_name ⟨false, AddResult.ok⟩ "acme"
          ⟨[], [], [], 10⟩).2)).1).isSome = true) ∧
    (∀ (f : ℤ) (w : String),
      fv_lookup ((get_or_create_feature_value ⟨false, AddResult.ok⟩ 4 "red"
          ⟨[], [], [], 20⟩).2).fvcache f w =
        fv_lookup (⟨[], [], [], 20⟩ : FVState).fvcache f w) ∧
    (((get_or_create_feature_value all_ok_env 4 "red"
        ((get_or_create_feature_value ⟨false, AddResult.ok⟩ 4 "red"
          ⟨[], [], [], 20⟩).2)).1).isSome = true) :=
  ⟨c10_failures_not_cached.1 ⟨false, AddResult.ok⟩ "acme" ⟨[], [], [], 10⟩ (by rfl),
   c10_failures_not_cached.2.1 ⟨false, AddResult.ok⟩ "acme" ⟨[], [], [], 10⟩
      (by decide) (by rfl) (by rfl),
   c10_failures_not_cached.2.2.1 ⟨false, AddResult.ok⟩ 4 "red" ⟨[], [], [], 20⟩ (by rfl),
   c10_failures_not_cached.2.2.2 ⟨false, AddResult.ok⟩ 4 "red" ⟨[], [], [], 20⟩
      (by decide) (by decide) (by rfl) (by rfl)⟩

end KeyHard
